import Mathlib

/-!
Verification development for the livestock-statistics preprocessing pipeline
(`2_Scriptes/preprocess_livestock_data_co2e_lsu_v3e.py`).

The pipeline is shallowly embedded: pandas dataframes become lists of records,
Python strings become `String` (operated on as `List Char`), floats become `ℚ`,
and the fatal `sys.exit` calls become `Except.error`.  Regular-expression tests
used by the script (`\bstock\b` etc.) are embedded as executable character-list
scanners.  File and CLI handling is outside the embedded core, as is the final
sort of the output (it only permutes rows and no property below concerns row
order); pandas group keys are collected with `List.dedup`, whose key order is
likewise immaterial to the properties proved here.
-/

namespace Livestock

/-! ### Generic string machinery (Python `str` operations and the regexes used) -/

/-- Lower-casing of a character list (Python `str.lower`, ASCII). -/
def lc (l : List Char) : List Char := l.map Char.toLower

/-- Upper-casing of a character list (Python `str.upper`, ASCII). -/
def uc (l : List Char) : List Char := l.map Char.toUpper

/-- Python `str.strip`: drop whitespace at both ends. -/
def trimL (l : List Char) : List Char :=
  ((l.dropWhile Char.isWhitespace).reverse.dropWhile Char.isWhitespace).reverse

/-- Python `str.strip` on a `String`. -/
def stripStr (s : String) : String := ⟨trimL s.data⟩

/-- Python `str.lower` on a `String`. -/
def lowerStr (s : String) : String := ⟨lc s.data⟩

/-- Does `pat` occur at the head of `s`? (used to embed string scanning). -/
def isPre : List Char → List Char → Bool
  | [], _ => true
  | _ :: _, [] => false
  | a :: as, b :: bs => a == b && isPre as bs

/-- Python `pat in s`: substring containment. -/
def containsSub (pat : List Char) : List Char → Bool
  | [] => pat.isEmpty
  | c :: t => isPre pat (c :: t) || containsSub pat t

/-- Case-insensitive substring test on a `String` (the script's
`re.search(pat, s, re.I)` for a plain-text pattern, and `pat in s.lower()`). -/
def containsCI (pat : String) (s : String) : Bool := containsSub pat.data (lc s.data)

/-- A regex word character (`\w`, ASCII): letter, digit or underscore. -/
def isWordChar (c : Char) : Bool := c.isAlphanum || c == '_'

/-- Is this position a word boundary, given the neighbouring character
(`none` at the ends of the string)? -/
def boundaryB : Option Char → Bool
  | none => true
  | some c => !isWordChar c

/-- Scan `s` for an occurrence of the word `w` delimited by word boundaries
(`\bw\b`); `prev` is the character just before `s`, if any. -/
def containsWordFrom (w : List Char) : Option Char → List Char → Bool
  | _, [] => false
  | prev, c :: rest =>
    (boundaryB prev && isPre w (c :: rest) && boundaryB ((c :: rest).drop w.length).head?)
      || containsWordFrom w (some c) rest

/-- `re.search(r"\bw\b", s)` for a word `w` made of word characters. -/
def containsWord (w : String) (s : List Char) : Bool := containsWordFrom w.data none s

/-- The last element of `a`, falling back to `prev` when `a` is empty:
the character immediately preceding a match that starts right after `a`. -/
def lastOr (prev : Option Char) : List Char → Option Char
  | [] => prev
  | c :: t => lastOr (some c) t

/-- Specification-side predicate: `s` decomposes as `a ++ w ++ b` with word
boundaries around `w` (`prev` being the character just before `s`). -/
def hasWordFrom (w : List Char) (prev : Option Char) (s : List Char) : Prop :=
  ∃ a b, s = a ++ w ++ b ∧ boundaryB (lastOr prev a) = true ∧ boundaryB b.head? = true

/-- `s` contains `w` as a `\b`-delimited word. -/
def hasWord (w : String) (s : List Char) : Prop := hasWordFrom w.data none s

/-- Parse the digits after the leading letter of a year column name
(`long["Year"].str[1:].astype(int)`). -/
def yearOfCol (c : String) : Nat :=
  (c.data.drop 1).foldl (fun n d => n * 10 + (d.toNat - '0'.toNat)) 0

/-! ### The classifier functions of the script -/

/-- `ALL_ANIMALS_LIST` from the script. -/
def ALL_ANIMALS_LIST : List String :=
  ["All animals", "All animal", "All livestock", "Total animals", "Animals, all"]

/-- `AGGREGATE_LIST` from the script. -/
def AGGREGATE_LIST : List String :=
  ["Camels and Llamas", "Cattle", "Mules and Asses", "Poultry Birds",
   "Sheep and Goats", "Swine"]

/-- `ATOMIC_LIST` from the script. -/
def ATOMIC_LIST : List String :=
  ["Asses", "Buffalo", "Camels", "Swine, breeding", "Swine, market", "Turkeys",
   "Cattle, dairy", "Cattle, non-dairy", "Chickens, broilers", "Chickens, layers",
   "Ducks", "Goats", "Horses", "Sheep"]

/-- `EXCLUDE_ITEMS` from the script (stored lower-cased, as in the source). -/
def EXCLUDE_ITEMS : List String := (["Chickens", "Mules and hinnies"]).map lowerStr

/-- `EU` country set from the script. -/
def EU_LIST : List String :=
  ["Austria", "Belgium", "Bulgaria", "Croatia", "Cyprus", "Czechia", "Czech Republic",
   "Denmark", "Estonia", "Finland", "France", "Germany", "Greece", "Hungary", "Ireland",
   "Italy", "Latvia", "Lithuania", "Luxembourg", "Malta", "Netherlands", "Poland",
   "Portugal", "Romania", "Slovakia", "Slovenia", "Spain", "Sweden"]

/-- `EEA_PLUS_UK` country set from the script. -/
def EEA_PLUS_UK : List String :=
  EU_LIST ++ ["Iceland", "Liechtenstein", "Norway", "United Kingdom", "UK"]

/-- `EUROPE_WIDE` country set from the script. -/
def EUROPE_WIDE : List String :=
  ["Albania", "Andorra", "Armenia", "Austria", "Azerbaijan", "Belarus", "Belgium",
   "Bosnia and Herzegovina", "Bulgaria", "Croatia", "Cyprus", "Czechia", "Czech Republic",
   "Denmark", "Estonia", "Finland", "France", "Georgia", "Germany", "Greece", "Hungary",
   "Iceland", "Ireland", "Italy", "Kazakhstan", "Kosovo", "Latvia", "Liechtenstein",
   "Lithuania", "Luxembourg", "Malta", "Moldova", "Monaco", "Montenegro", "Netherlands",
   "North Macedonia", "Norway", "Poland", "Portugal", "Romania", "Russia", "San Marino",
   "Serbia", "Slovakia", "Slovenia", "Spain", "Sweden", "Switzerland", "Turkey",
   "Ukraine", "United Kingdom", "UK", "Vatican City"]

/-- `detect_year_cols`: a column is a year column when its name starts with the
character `Y` followed by a non-empty run of digits (`c.startswith("Y") and
c[1:].isdigit()`). -/
def isYearColName (c : String) : Bool :=
  match c.data with
  | [] => false
  | h :: t => h == 'Y' && !t.isEmpty && t.all Char.isDigit

/-- `detect_year_cols` from the script. -/
def detect_year_cols (cols : List String) : List String := cols.filter isYearColName

/-- The three canonical element codes. -/
inductive ElementNorm
  | Stocks
  | CH4
  | N2O
deriving DecidableEq, Repr

/-- `normalize_element`: strip and lower-case, then test
`(^stocks?$|\bstock\b)`, `\b(ch4|methane)\b`, `\b(n2o|nitrous)\b` in order. -/
def normalize_element (e : String) : Option ElementNorm :=
  let s := lc (trimL e.data)
  if s == "stock".data || s == "stocks".data || containsWord "stock" s then some .Stocks
  else if containsWord "ch4" s || containsWord "methane" s then some .CH4
  else if containsWord "n2o" s || containsWord "nitrous" s then some .N2O
  else none

/-- `gwp_pair`: the four named (CH4, N2O) GWP factor pairs, defaulting to
`AR6_NOCCF` for any other (stripped, upper-cased) name. -/
def gwp_pair (name : String) : ℚ × ℚ :=
  let k := uc (trimL name.data)
  if k = "AR4".data then (25, 298)
  else if k = "AR5".data then (28, 265)
  else if k = "AR6_NOCCF".data then (136/5, 273)
  else if k = "AR6_CCF".data then (149/5, 273)
  else (136/5, 273)

/-- The three taxonomy tiers. -/
inductive Kind
  | all_animals
  | aggregate
  | atomic
deriving DecidableEq, Repr

/-- `item_kind`: case-insensitive exact match against the three fixed lists,
defaulting to `atomic`. -/
def item_kind (label : String) : Kind :=
  let low := lowerStr (stripStr label)
  if (ALL_ANIMALS_LIST.map lowerStr).contains low then .all_animals
  else if (AGGREGATE_LIST.map lowerStr).contains low then .aggregate
  else if (ATOMIC_LIST.map lowerStr).contains low then .atomic
  else .atomic

/-- `looks_like_cattle`: case-insensitive substring test for cattle or bovine. -/
def looks_like_cattle (name : String) : Bool :=
  containsCI "cattle" name || containsCI "bovine" name

/-- `default_lsu_weight`: first-match-wins substring rules on the lower-cased
item label. -/
def default_lsu_weight (item : String) : ℚ :=
  let has : String → Bool := fun p => containsCI p item
  if has "dairy" && (has "cattle" || has "bovine") then 1
  else if has "cattle" || has "bovine" then 8/10
  else if has "buffalo" then 1
  else if has "sheep" || has "goat" then 1/10
  else if has "pig" || has "swine" then 3/10
  else if has "poultry" || has "chicken" || has "turkey" || has "duck" then 1/100
  else if has "horse" || has "equid" then 8/10
  else 1

/-- `is_livestock_total_element`: the label contains both "livestock" and
"total" as case-insensitive substrings. -/
def is_livestock_total_element (label : String) : Bool :=
  containsCI "livestock" label && containsCI "total" label

/-- `re.sub(r"(?i)cattle", repl, ·)`: replace every (leftmost, non-overlapping)
case-insensitive occurrence of "cattle" by `repl`.  When a match is found the
six matched characters are consumed; the second `match` arm is unreachable
because a successful six-character prefix match guarantees five characters
after the head. -/
def replaceCattle (repl : List Char) : List Char → List Char
  | [] => []
  | c :: rest =>
    if isPre "cattle".data (lc (c :: rest)) then
      match rest with
      | _ :: _ :: _ :: _ :: _ :: rest2 => repl ++ replaceCattle repl rest2
      | _ => repl
    else c :: replaceCattle repl rest

/-- Replacement on a `String`. -/
def replaceCattleStr (repl : String) (s : String) : String := ⟨replaceCattle repl.data s.data⟩

/-- Clamped dairy fraction: `max(0.0, min(1.0, dairy_share / 100.0))`. -/
def dairyFrac (share : ℚ) : ℚ := max 0 (min 1 (share / 100))

/-! ### Data model: the dataframe as lists of records -/

/-- A raw CSV row: the three required key columns plus the data cells, aligned
with the table's column-name list. -/
structure RawRow where
  Area : String
  Item : String
  Element : String
  vals : List ℚ
deriving DecidableEq, Repr

/-- The raw CSV table (`Area`/`Item`/`Element` are carried in the rows). -/
structure RawTable where
  cols : List String
  rows : List RawRow
deriving DecidableEq, Repr

/-- A wide row after element normalisation (`ElementNorm` attached). -/
structure NormRow where
  Area : String
  Item : String
  Element : String
  elemNorm : ElementNorm
  vals : List ℚ
deriving DecidableEq, Repr

/-- A row of the long (melted) table. -/
structure LongRow where
  Area : String
  Item : String
  Element : String
  elemNorm : ElementNorm
  kind : Kind
  isAllAnimals : Bool
  isAtomic : Bool
  year : Nat
  value : ℚ
deriving DecidableEq, Repr

/-- The five output metrics. -/
inductive MetricT
  | Stocks
  | CH4_CO2e
  | N2O_CO2e
  | Total_CO2e
  | LSU
deriving DecidableEq, Repr

/-- A row of the prepared output table. -/
structure OutRow where
  Area : String
  Item : String
  year : Nat
  Metric : MetricT
  value : ℚ
  kind : Kind
  isAllAnimals : Bool
  isAtomic : Bool
deriving DecidableEq, Repr

/-! ### Pipeline stages -/

/-- Line 108-109: strip the three key columns. -/
def stripRow (r : RawRow) : RawRow :=
  { r with Area := stripStr r.Area, Item := stripStr r.Item, Element := stripStr r.Element }

/-- Line 112: drop rows whose (stripped, lower-cased) item is excluded. -/
def excludeStep (rows : List RawRow) : List RawRow :=
  rows.filter (fun r => !(EXCLUDE_ITEMS.contains (lowerStr (stripStr r.Item))))

/-- Lines 118-119: attach `ElementNorm` and drop unclassified rows. -/
def normStep (rows : List RawRow) : List NormRow :=
  rows.filterMap (fun r => (normalize_element r.Element).map (fun en =>
    { Area := r.Area, Item := r.Item, Element := r.Element, elemNorm := en, vals := r.vals }))

/-- Lines 121-124: when enabled, keep a CH4/N2O row only if its element label
is a "livestock total" label; other rows pass. -/
def onlyLTStep (flag : Bool) (rows : List NormRow) : List NormRow :=
  if flag then
    rows.filter (fun r =>
      !(r.elemNorm == .CH4 || r.elemNorm == .N2O) || is_livestock_total_element r.Element)
  else rows

/-- Lines 126-132: the long rows one wide row contributes — one per detected
year column, with the taxonomy columns attached. -/
def meltRow (cols : List String) (r : NormRow) : List LongRow :=
  ((cols.zip r.vals).filter (fun p => isYearColName p.1)).map (fun p =>
    { Area := r.Area, Item := r.Item, Element := r.Element, elemNorm := r.elemNorm,
      kind := item_kind r.Item,
      isAllAnimals := decide (item_kind r.Item = Kind.all_animals),
      isAtomic := decide (item_kind r.Item = Kind.atomic),
      year := yearOfCol p.1, value := p.2 })

/-- Lines 126-132: attach the taxonomy columns and melt the year columns into
one `(Year, Value)` row per original row and detected year column. -/
def meltStep (cols : List String) (rows : List NormRow) : List LongRow :=
  rows.flatMap (meltRow cols)

/-- The pandas group key used by the metric stages:
`(Area, Item, Year, item_kind, is_all_animals, is_atomic)`. -/
abbrev GKey := String × String × Nat × Kind × Bool × Bool

/-- Group key of a long row. -/
def keyOf (r : LongRow) : GKey := (r.Area, r.Item, r.year, r.kind, r.isAllAnimals, r.isAtomic)

/-- Sum of the values of the rows with group key `k` (a pandas
`groupby(...).sum()` cell; `0` when no row matches). -/
def sumAt (rows : List LongRow) (k : GKey) : ℚ :=
  ((rows.filter (fun r => keyOf r == k)).map (fun r => r.value)).sum

/-- The distinct group keys occurring in `rows`. -/
def groupKeys (rows : List LongRow) : List GKey := (rows.map keyOf).dedup

/-- Build an output row for metric `m` from a group key and a value. -/
def rowOfKey (m : MetricT) (k : GKey) (v : ℚ) : OutRow :=
  { Area := k.1, Item := k.2.1, year := k.2.2.1, Metric := m, value := v,
    kind := k.2.2.2.1, isAllAnimals := k.2.2.2.2.1, isAtomic := k.2.2.2.2.2 }

/-- The Stocks-classified long rows. -/
def stocksRows (long : List LongRow) : List LongRow :=
  long.filter (fun r => r.elemNorm == .Stocks)

/-- Lines 136-139: Stocks rows are copied to the output unchanged (no
grouping). -/
def stocksStage (long : List LongRow) : List OutRow :=
  (stocksRows long).map (fun r =>
    { Area := r.Area, Item := r.Item, year := r.year, Metric := .Stocks, value := r.value,
      kind := r.kind, isAllAnimals := r.isAllAnimals, isAtomic := r.isAtomic })

/-- The gas rows for `g`, with values scaled by the GWP factor. -/
def scaledGas (g : ElementNorm) (factor : ℚ) (long : List LongRow) : List LongRow :=
  (long.filter (fun r => r.elemNorm == g)).map (fun r => { r with value := r.value * factor })

/-- Lines 141-155: scale a gas by its GWP factor and sum per group key. -/
def gasStage (m : MetricT) (g : ElementNorm) (factor : ℚ) (long : List LongRow) : List OutRow :=
  let sc := scaledGas g factor long
  (groupKeys sc).map (fun k => rowOfKey m k (sumAt sc k))

/-- Lines 157-165: outer-merge the per-key CH4 and N2O sums (missing side 0)
and add them. -/
def totalStage (fCH4 fN2O : ℚ) (long : List LongRow) : List OutRow :=
  let c := scaledGas .CH4 fCH4 long
  let n := scaledGas .N2O fN2O long
  ((groupKeys c ++ groupKeys n).dedup).map (fun k =>
    rowOfKey .Total_CO2e k (sumAt c k + sumAt n k))

/-- Lines 175-176, 179: the dairy half of a split cattle row. -/
def dairyRow (f : ℚ) (r : LongRow) : LongRow :=
  { r with value := r.value * f,
           Item := replaceCattleStr "Cattle (dairy)" r.Item,
           kind := .atomic, isAtomic := true, isAllAnimals := false }

/-- Lines 177-178, 180: the non-dairy half of a split cattle row. -/
def otherRow (f : ℚ) (r : LongRow) : LongRow :=
  { r with value := r.value * (1 - f),
           Item := replaceCattleStr "Cattle (other)" r.Item,
           kind := .atomic, isAtomic := true, isAllAnimals := false }

/-- Lines 170-181: the optional cattle split of the stocks table feeding LSU
(the source's `if not cattle.empty` guard is dropped: with no cattle rows both
mapped lists are empty and the concatenation is the unsplit table). -/
def splitStep (split : Bool) (f : ℚ) (st : List LongRow) : List LongRow :=
  if split then
    let cattle := st.filter (fun r => looks_like_cattle r.Item)
    let non := st.filter (fun r => !looks_like_cattle r.Item)
    non ++ cattle.map (dairyRow f) ++ cattle.map (otherRow f)
  else st

/-- Lines 183-187: LSU values, one row per (post-split) stocks row. -/
def lsuStage (split : Bool) (f : ℚ) (long : List LongRow) : List OutRow :=
  (splitStep split f (stocksRows long)).map (fun r =>
    { Area := r.Area, Item := r.Item, year := r.year, Metric := .LSU,
      value := r.value * default_lsu_weight r.Item,
      kind := r.kind, isAllAnimals := r.isAllAnimals, isAtomic := r.isAtomic })

/-- Lines 134-193: the per-country prepared table (concatenation of the five
metric stages; the source's emptiness guards only skip appending empty frames
and its sort only permutes rows). -/
def prepared (gwpName : String) (split : Bool) (f : ℚ) (long : List LongRow) : List OutRow :=
  stocksStage long
    ++ gasStage .CH4_CO2e .CH4 (gwp_pair gwpName).1 long
    ++ gasStage .N2O_CO2e .N2O (gwp_pair gwpName).2 long
    ++ totalStage (gwp_pair gwpName).1 (gwp_pair gwpName).2 long
    ++ lsuStage split f long

/-! ### Region aggregation -/

/-- The region group key: `(Item, Year, Metric, item_kind, flags)`. -/
abbrev RKey := String × Nat × MetricT × Kind × Bool × Bool

/-- Region group key of an output row (the area is summed over). -/
def rkeyOf (r : OutRow) : RKey := (r.Item, r.year, r.Metric, r.kind, r.isAllAnimals, r.isAtomic)

/-- The full `(Area, Item, Year, kind, flags)` group key of an output row. -/
def outKeyOf (r : OutRow) : GKey := (r.Area, r.Item, r.year, r.kind, r.isAllAnimals, r.isAtomic)

/-- Sum of the values of the output rows with region key `k`. -/
def rsumAt (rows : List OutRow) (k : RKey) : ℚ :=
  ((rows.filter (fun r => rkeyOf r == k)).map (fun r => r.value)).sum

/-- Lines 196-203: `group_totals` — sum the member countries' rows per region
key and label the result with the synthetic area name. -/
def group_totals (out : List OutRow) (members : List String) (label : String) : List OutRow :=
  let sub := out.filter (fun r => members.contains r.Area)
  ((sub.map rkeyOf).dedup).map (fun k =>
    { Area := label, Item := k.1, year := k.2.1, Metric := k.2.2.1,
      value := rsumAt sub k,
      kind := k.2.2.2.1, isAllAnimals := k.2.2.2.2.1, isAtomic := k.2.2.2.2.2 })

/-- Line 205: the distinct areas present in the per-country output. -/
def areasOf (out : List OutRow) : List String := (out.map (fun r => r.Area)).dedup

/-- Lines 206-208: intersection of a member set with the available areas. -/
def interAreas (out : List OutRow) (members : List String) : List String :=
  (areasOf out).filter (fun a => members.contains a)

/-- Lines 210-215: append the three region totals (a group with an empty
intersection is skipped). -/
def withRegions (out : List OutRow) : List OutRow :=
  out
    ++ (if interAreas out EU_LIST ≠ [] then
          group_totals out (interAreas out EU_LIST) "EU (group total)" else [])
    ++ (if interAreas out EEA_PLUS_UK ≠ [] then
          group_totals out (interAreas out EEA_PLUS_UK) "EU/EEA+UK (group total)" else [])
    ++ (if interAreas out EUROPE_WIDE ≠ [] then
          group_totals out (interAreas out EUROPE_WIDE) "Europe (group total)" else [])

/-- `main` from the point after the CSV is read (file existence and the
required-column check on `Area`/`Item`/`Element` live outside this embedding,
which carries those three columns as record fields). -/
def run (gwpName : String) (split onlyLT : Bool) (dairyShare : ℚ) (tbl : RawTable) :
    Except String (List OutRow) :=
  let rows := excludeStep (tbl.rows.map stripRow)
  if (detect_year_cols tbl.cols).isEmpty then
    .error "ERROR: No year columns found (expected Y2010, Y2018, etc.)"
  else
    let long := meltStep tbl.cols (onlyLTStep onlyLT (normStep rows))
    let out := prepared gwpName split (dairyFrac dairyShare) long
    if out.isEmpty then .error "Nothing to write."
    else .ok (withRegions out)

/-- The `(Area, Item, Year)` key of a long row. -/
def tripleOf (r : LongRow) : String × String × Nat := (r.Area, r.Item, r.year)

/-- The `(Area, Item, Year)` key of an output row. -/
def outTripleOf (r : OutRow) : String × String × Nat := (r.Area, r.Item, r.year)

/-- The `(Area, Item, Year)` part of a full group key. -/
def tripleOfKey (k : GKey) : String × String × Nat := (k.1, k.2.1, k.2.2.1)

/-- The taxonomy columns of a long row agree with its item label (true of
every row the melt stage produces; the taxonomy key components are then
functions of the item, so grouping by the full pandas key coincides with
grouping by `(Area, Item, Year)`). -/
def flagsOk (r : LongRow) : Prop :=
  r.kind = item_kind r.Item
    ∧ r.isAllAnimals = decide (item_kind r.Item = Kind.all_animals)
    ∧ r.isAtomic = decide (item_kind r.Item = Kind.atomic)

/-- The full group key determined by an `(Area, Item, Year)` triple. -/
def fullKey (t : String × String × Nat) : GKey :=
  (t.1, t.2.1, t.2.2, item_kind t.2.1,
   decide (item_kind t.2.1 = Kind.all_animals), decide (item_kind t.2.1 = Kind.atomic))

/-- Sum of the values of the metric-`m` output rows with `(Area, Item, Year)`
key `t` (0 when there is none). -/
def metricSumAt (m : MetricT) (out : List OutRow) (t : String × String × Nat) : ℚ :=
  ((out.filter (fun r => r.Metric == m && outTripleOf r == t)).map (fun r => r.value)).sum

/-- Sum of the values of country `a`'s rows with region key `k` (0 when the
country has no such row). -/
def areaKeySum (out : List OutRow) (a : String) (k : RKey) : ℚ :=
  ((out.filter (fun r => r.Area == a && rkeyOf r == k)).map (fun r => r.value)).sum

/-- Sum of the raw (unscaled) values of the `g`-classified rows with group
key `k` — what a gas metric's groupby cell aggregates before GWP scaling. -/
def gasKeySum (g : ElementNorm) (long : List LongRow) (k : GKey) : ℚ :=
  (((long.filter (fun r => r.elemNorm == g)).filter (fun r => keyOf r == k)).map
    (fun r => r.value)).sum

/-! ### Concrete rows and tables used by witnesses and counterexamples -/

/-- A cattle stocks row (France, 2020, 1000 head). -/
def cattleRowW : LongRow :=
  { Area := "France", Item := "Cattle", Element := "Stocks", elemNorm := .Stocks,
    kind := .aggregate, isAllAnimals := false, isAtomic := false, year := 2020, value := 1000 }

/-- A goat stocks row (France, 2020, 50 head). -/
def goatRowW : LongRow :=
  { Area := "France", Item := "Goats", Element := "Stocks", elemNorm := .Stocks,
    kind := .atomic, isAllAnimals := false, isAtomic := true, year := 2020, value := 50 }

/-- A bovine-labelled stocks row with no "cattle" substring in its label. -/
def bovineRowW : LongRow :=
  { Area := "France", Item := "Bovine", Element := "Stocks", elemNorm := .Stocks,
    kind := .atomic, isAllAnimals := false, isAtomic := true, year := 2020, value := 100 }

/-- Two CH4 rows sharing one group key (for the duplicate-summing witnesses). -/
def ch4RowsW : List LongRow :=
  [{ Area := "France", Item := "Cattle", Element := "Livestock total (Emissions CH4)",
     elemNorm := .CH4, kind := .aggregate, isAllAnimals := false, isAtomic := false,
     year := 2020, value := 2 },
   { Area := "France", Item := "Cattle", Element := "Livestock total (Emissions CH4)",
     elemNorm := .CH4, kind := .aggregate, isAllAnimals := false, isAtomic := false,
     year := 2020, value := 3 }]

/-- The shared group key of `ch4RowsW`. -/
def keyW : GKey := ("France", "Cattle", 2020, Kind.aggregate, false, false)

/-- A two-country output table sharing one region key. -/
def outRowsW : List OutRow :=
  [{ Area := "France", Item := "Goats", year := 2020, Metric := .Stocks, value := 5,
     kind := .atomic, isAllAnimals := false, isAtomic := true },
   { Area := "Germany", Item := "Goats", year := 2020, Metric := .Stocks, value := 7,
     kind := .atomic, isAllAnimals := false, isAtomic := true }]

/-- The region key shared by the rows of `outRowsW`. -/
def kRW : RKey := ("Goats", 2020, MetricT.Stocks, Kind.atomic, false, true)

/-- The EU group-total row built from `outRowsW`. -/
def regionRowW : OutRow :=
  { Area := "EU (group total)", Item := "Goats", year := 2020, Metric := .Stocks,
    value := rsumAt (outRowsW.filter
      (fun r => (interAreas outRowsW EU_LIST).contains r.Area)) kRW,
    kind := .atomic, isAllAnimals := false, isAtomic := true }

/-- Two duplicate cattle stocks rows sharing one group key. -/
def stocksDupW : List LongRow :=
  [{ Area := "France", Item := "Cattle", Element := "Stocks", elemNorm := .Stocks,
     kind := .aggregate, isAllAnimals := false, isAtomic := false, year := 2020, value := 10 },
   { Area := "France", Item := "Cattle", Element := "Stocks", elemNorm := .Stocks,
     kind := .aggregate, isAllAnimals := false, isAtomic := false, year := 2020, value := 20 }]

/-- Duplicate stocks rows plus duplicate CH4 rows, all on one key. -/
def longDupW : List LongRow := stocksDupW ++ ch4RowsW

/-- Modelled from the spec: claim C9's stated year-column pattern, "a letter
followed by four digits" (the source's `detect_year_cols` is the authority the
claim is checked against; this definition only renders the claim's own words
for comparison). -/
def specYearCol (c : String) : Bool :=
  match c.data with
  | [] => false
  | h :: t => h.isAlpha && t.length == 4 && t.all Char.isDigit

/-- A table whose single year column is fine but whose only row has an
unclassifiable element label, so the pipeline exits with "Nothing to write."
even though year columns were detected. -/
def tblNW : RawTable :=
  { cols := ["Y2020"],
    rows := [{ Area := "France", Item := "Goats", Element := "Production", vals := [1] }] }

/-- A table with no year column at all. -/
def tblNoYear : RawTable :=
  { cols := ["Unit"],
    rows := [{ Area := "France", Item := "Goats", Element := "Stocks", vals := [1] }] }

/-- A normalised wide row with two data cells (for the melt-count witness). -/
def nrowW : NormRow :=
  { Area := "France", Item := "Goats", Element := "Stocks", elemNorm := .Stocks,
    vals := [3, 9] }

/-! ### String-scanning lemmas -/

theorem isPre_iff (x y : List Char) : isPre x y = true ↔ ∃ t, x ++ t = y := by
  induction x generalizing y with
  | nil => simp [isPre]
  | cons a as ih =>
    cases y with
    | nil => simp [isPre]
    | cons b bs =>
      simp only [isPre, Bool.and_eq_true, beq_iff_eq, ih, List.cons_append]
      constructor
      · rintro ⟨rfl, t, rfl⟩
        exact ⟨t, rfl⟩
      · rintro ⟨t, h⟩
        injection h with h1 h2
        exact ⟨h1, t, h2⟩

theorem containsSub_iff (x y : List Char) : containsSub x y = true ↔ ∃ s t, s ++ x ++ t = y := by
  induction y with
  | nil =>
    simp only [containsSub, List.isEmpty_iff]
    constructor
    · rintro rfl
      exact ⟨[], [], rfl⟩
    · rintro ⟨s, t, h⟩
      rcases List.append_eq_nil.mp h with ⟨h1, h2⟩
      exact (List.append_eq_nil.mp h1).2
  | cons c ys ih =>
    simp only [containsSub, Bool.or_eq_true, isPre_iff, ih]
    constructor
    · rintro (⟨t, h⟩ | ⟨s, t, h⟩)
      · exact ⟨[], t, h⟩
      · exact ⟨c :: s, t, by simp [← h]⟩
    · rintro ⟨s, t, h⟩
      cases s with
      | nil => exact Or.inl ⟨t, by simpa using h⟩
      | cons s0 ss =>
        right
        injection h with h1 h2
        exact ⟨ss, t, h2⟩

theorem containsSub_cons {x t : List Char} (c : Char) (h : containsSub x t = true) :
    containsSub x (c :: t) = true := by
  rcases (containsSub_iff x t).mp h with ⟨s, u, rfl⟩
  exact (containsSub_iff _ _).mpr ⟨c :: s, u, rfl⟩

theorem isPre_append_self (x z : List Char) : isPre x (x ++ z) = true :=
  (isPre_iff _ _).mpr ⟨z, rfl⟩

theorem isPre_containsSub {x y : List Char} (h : isPre x y = true) : containsSub x y = true := by
  rcases (isPre_iff x y).mp h with ⟨t, rfl⟩
  exact (containsSub_iff _ _).mpr ⟨[], t, rfl⟩

theorem containsSub_trans {a b c : List Char} (h1 : containsSub a b = true)
    (h2 : containsSub b c = true) : containsSub a c = true := by
  rcases (containsSub_iff a b).mp h1 with ⟨s1, t1, rfl⟩
  rcases (containsSub_iff _ c).mp h2 with ⟨s2, t2, rfl⟩
  exact (containsSub_iff _ _).mpr ⟨s2 ++ s1, t1 ++ t2, by simp⟩

theorem isPre_length {x y : List Char} (h : isPre x y = true) : x.length ≤ y.length := by
  rcases (isPre_iff x y).mp h with ⟨t, rfl⟩
  simp

theorem lastOr_cons (prev : Option Char) (c : Char) (a : List Char) :
    lastOr prev (c :: a) = lastOr (some c) a := rfl

/-- The word scanner agrees with the declarative decomposition predicate. -/
theorem containsWordFrom_iff {w : List Char} (hw : w ≠ []) :
    ∀ (s : List Char) (prev : Option Char),
      containsWordFrom w prev s = true ↔ hasWordFrom w prev s := by
  intro s
  induction s with
  | nil =>
    intro prev
    simp only [containsWordFrom, hasWordFrom]
    constructor
    · intro h
      exact absurd h (by simp)
    · rintro ⟨a, b, h, -, -⟩
      rcases List.append_eq_nil.mp h.symm with ⟨h1, h2⟩
      exact absurd (List.append_eq_nil.mp h1).2 hw
  | cons c rest ih =>
    intro prev
    simp only [containsWordFrom, Bool.or_eq_true, Bool.and_eq_true]
    constructor
    · rintro (⟨⟨hb, hp⟩, ha⟩ | htail)
      · rcases (isPre_iff _ _).mp hp with ⟨b, hb2⟩
        refine ⟨[], b, by simpa using hb2.symm, ?_, ?_⟩
        · simpa [lastOr] using hb
        · have : (c :: rest).drop w.length = b := by
            rw [← hb2]
            exact List.drop_left _ _
          rwa [this] at ha
      · rcases (ih (some c)).mp htail with ⟨a, b, h1, h2, h3⟩
        exact ⟨c :: a, b, by simp [h1], by rwa [lastOr_cons], h3⟩
    · rintro ⟨a, b, h1, h2, h3⟩
      cases a with
      | nil =>
        left
        have hp : isPre w (c :: rest) = true := by
          refine (isPre_iff _ _).mpr ⟨b, ?_⟩
          simpa using h1.symm
        refine ⟨⟨by simpa [lastOr] using h2, hp⟩, ?_⟩
        have : (c :: rest).drop w.length = b := by
          rw [h1]
          simp
        rwa [this]
      | cons a0 as =>
        right
        have h1' : c :: rest = a0 :: (as ++ w ++ b) := by simpa using h1
        have hc : c = a0 ∧ rest = as ++ w ++ b := by
          injection h1' with hx hy
          exact ⟨hx, hy⟩
        rcases hc with ⟨rfl, hrest⟩
        exact (ih (some c)).mpr ⟨as, b, hrest, by rwa [lastOr_cons] at h2, h3⟩

theorem containsWord_iff (w : String) (hw : w.data ≠ []) (s : List Char) :
    containsWord w s = true ↔ hasWord w s :=
  containsWordFrom_iff hw s none

theorem stockCond_iff (s : List Char) :
    (s == "stock".data || s == "stocks".data || containsWord "stock" s) = true
      ↔ (s = "stock".data ∨ s = "stocks".data ∨ hasWord "stock" s) := by
  simp [Bool.or_eq_true, containsWord_iff "stock" (by decide) s, or_assoc]

theorem wordPair_iff (w1 w2 : String) (h1 : w1.data ≠ []) (h2 : w2.data ≠ []) (s : List Char) :
    (containsWord w1 s || containsWord w2 s) = true ↔ (hasWord w1 s ∨ hasWord w2 s) := by
  simp [Bool.or_eq_true, containsWord_iff w1 h1 s, containsWord_iff w2 h2 s]

/-! ### Claim C1 -/

/-- Claim C1 as frozen is false on the code: the element label "Livestock"
contains "stock" as a case-insensitive substring, yet `normalize_element`
classifies it as nothing (the source regex requires "stock" as a
`\b`-delimited word, and the "stock" inside "Livestock" is not one). -/
theorem C1_counterexample :
    containsCI "stock" "Livestock" = true ∧ normalize_element "Livestock" = none := by
  exact ⟨by decide, by decide⟩

/-- Claim C1 (amended): a label whose trimmed lower-cased form is exactly
"stock"/"stocks" or contains "stock" as a `\b`-delimited word normalises to
Stocks; otherwise a label containing "ch4" or "methane" as a word normalises
to CH4; otherwise one containing "n2o" or "nitrous" as a word normalises to
N2O — the three tests applied in that order with first match winning; any
other label yields no classification, and every row surviving the
normalisation step was classified (unclassified rows are dropped there, hence
excluded from all downstream computation). -/
theorem C1_normalize_element_rules :
    (∀ e : String, (lc (trimL e.data) = "stock".data ∨ lc (trimL e.data) = "stocks".data ∨
        hasWord "stock" (lc (trimL e.data))) →
      normalize_element e = some ElementNorm.Stocks)
    ∧ (∀ e : String,
        ¬(lc (trimL e.data) = "stock".data ∨ lc (trimL e.data) = "stocks".data ∨
            hasWord "stock" (lc (trimL e.data))) →
        (hasWord "ch4" (lc (trimL e.data)) ∨ hasWord "methane" (lc (trimL e.data))) →
      normalize_element e = some ElementNorm.CH4)
    ∧ (∀ e : String,
        ¬(lc (trimL e.data) = "stock".data ∨ lc (trimL e.data) = "stocks".data ∨
            hasWord "stock" (lc (trimL e.data))) →
        ¬(hasWord "ch4" (lc (trimL e.data)) ∨ hasWord "methane" (lc (trimL e.data))) →
        (hasWord "n2o" (lc (trimL e.data)) ∨ hasWord "nitrous" (lc (trimL e.data))) →
      normalize_element e = some ElementNorm.N2O)
    ∧ (∀ e : String,
        ¬(lc (trimL e.data) = "stock".data ∨ lc (trimL e.data) = "stocks".data ∨
            hasWord "stock" (lc (trimL e.data))) →
        ¬(hasWord "ch4" (lc (trimL e.data)) ∨ hasWord "methane" (lc (trimL e.data))) →
        ¬(hasWord "n2o" (lc (trimL e.data)) ∨ hasWord "nitrous" (lc (trimL e.data))) →
      normalize_element e = none)
    ∧ (∀ (rows : List RawRow) (r : NormRow), r ∈ normStep rows →
        normalize_element r.Element = some r.elemNorm) := by
  have hstock : ∀ e : String,
      ¬(lc (trimL e.data) = "stock".data ∨ lc (trimL e.data) = "stocks".data ∨
          hasWord "stock" (lc (trimL e.data))) →
      (lc (trimL e.data) == "stock".data || lc (trimL e.data) == "stocks".data ||
        containsWord "stock" (lc (trimL e.data))) = false := by
    intro e hn
    cases hcond : (lc (trimL e.data) == "stock".data || lc (trimL e.data) == "stocks".data ||
        containsWord "stock" (lc (trimL e.data))) with
    | false => rfl
    | true => exact absurd ((stockCond_iff _).mp hcond) hn
  have hgasF : ∀ (w1 w2 : String), w1.data ≠ [] → w2.data ≠ [] → ∀ e : String,
      ¬(hasWord w1 (lc (trimL e.data)) ∨ hasWord w2 (lc (trimL e.data))) →
      (containsWord w1 (lc (trimL e.data)) || containsWord w2 (lc (trimL e.data))) = false := by
    intro w1 w2 hw1 hw2 e hn
    cases hcond : (containsWord w1 (lc (trimL e.data)) || containsWord w2 (lc (trimL e.data))) with
    | false => rfl
    | true => exact absurd ((wordPair_iff w1 w2 hw1 hw2 _).mp hcond) hn
  refine ⟨?_, ?_, ?_, ?_, ?_⟩
  · intro e h
    have hb := (stockCond_iff (lc (trimL e.data))).mpr h
    simp [normalize_element, hb]
  · intro e hn hch
    have hb := hstock e hn
    have hg := (wordPair_iff "ch4" "methane" (by decide) (by decide) _).mpr hch
    simp [normalize_element, hb, hg]
  · intro e hn hnc hn2
    have hb := hstock e hn
    have hgc := hgasF "ch4" "methane" (by decide) (by decide) e hnc
    have hg := (wordPair_iff "n2o" "nitrous" (by decide) (by decide) _).mpr hn2
    simp [normalize_element, hb, hgc, hg]
  · intro e hn hnc hnn
    have hb := hstock e hn
    have hgc := hgasF "ch4" "methane" (by decide) (by decide) e hnc
    have hgn := hgasF "n2o" "nitrous" (by decide) (by decide) e hnn
    simp [normalize_element, hb, hgc, hgn]
  · intro rows r hr
    rcases List.mem_filterMap.mp hr with ⟨a, ha, hfa⟩
    rcases Option.map_eq_some'.mp hfa with ⟨en, hen, heq⟩
    rw [← heq]
    exact hen

/-- Witness for the amended C1: each rule fires on a concrete label, and a
concrete surviving row is classified. -/
theorem C1_witness :
    normalize_element "  Stocks " = some ElementNorm.Stocks
    ∧ normalize_element "Emissions (CH4)" = some ElementNorm.CH4
    ∧ normalize_element "Nitrous oxide" = some ElementNorm.N2O
    ∧ normalize_element "Livestock units" = none
    ∧ normalize_element
        ({ Area := "France", Item := "Goats", Element := "Stocks", elemNorm := .Stocks,
           vals := [5] } : NormRow).Element = some ElementNorm.Stocks := by
  refine ⟨?_, ?_, ?_, ?_, ?_⟩
  · exact C1_normalize_element_rules.1 "  Stocks "
      (Or.inr (Or.inl (by decide)))
  · exact C1_normalize_element_rules.2.1 "Emissions (CH4)"
      (by
        rintro (h | h | h)
        · exact absurd h (by decide)
        · exact absurd h (by decide)
        · exact absurd ((containsWord_iff "stock" (by decide) _).mpr h) (by decide))
      (Or.inl ((containsWord_iff "ch4" (by decide) _).mp (by decide)))
  · exact C1_normalize_element_rules.2.2.1 "Nitrous oxide"
      (by
        rintro (h | h | h)
        · exact absurd h (by decide)
        · exact absurd h (by decide)
        · exact absurd ((containsWord_iff "stock" (by decide) _).mpr h) (by decide))
      (by
        rintro (h | h)
        · exact absurd ((containsWord_iff "ch4" (by decide) _).mpr h) (by decide)
        · exact absurd ((containsWord_iff "methane" (by decide) _).mpr h) (by decide))
      (Or.inr ((containsWord_iff "nitrous" (by decide) _).mp (by decide)))
  · exact C1_normalize_element_rules.2.2.2.1 "Livestock units"
      (by
        rintro (h | h | h)
        · exact absurd h (by decide)
        · exact absurd h (by decide)
        · exact absurd ((containsWord_iff "stock" (by decide) _).mpr h) (by decide))
      (by
        rintro (h | h)
        · exact absurd ((containsWord_iff "ch4" (by decide) _).mpr h) (by decide)
        · exact absurd ((containsWord_iff "methane" (by decide) _).mpr h) (by decide))
      (by
        rintro (h | h)
        · exact absurd ((containsWord_iff "n2o" (by decide) _).mpr h) (by decide)
        · exact absurd ((containsWord_iff "nitrous" (by decide) _).mpr h) (by decide))
  · exact C1_normalize_element_rules.2.2.2.2
      [{ Area := "France", Item := "Goats", Element := "Stocks", vals := [5] }]
      _ (by decide)

/-! ### Claim C8 -/

/-- Claim C8: with the only-livestock-total filter enabled, a normalised row
is kept iff it is a Stocks row (never removed, whatever its label) or its
element label contains both "livestock" and "total" as case-insensitive
substrings (in either order). -/
theorem C8_only_livestock_total_filter :
    ∀ (rows : List NormRow) (r : NormRow),
      r ∈ onlyLTStep true rows ↔
        r ∈ rows ∧ (r.elemNorm = ElementNorm.Stocks ∨
          (containsCI "livestock" r.Element = true ∧ containsCI "total" r.Element = true)) := by
  intro rows r
  show r ∈ rows.filter _ ↔ _
  rw [List.mem_filter]
  apply and_congr_right
  intro _
  cases hEl : r.elemNorm <;>
    simp [is_livestock_total_element, hEl, Bool.and_eq_true]

/-! ### Claim C4 -/

/-- Claim C4: the dairy share is clamped into [0,1]; for a cattle row with
stocks value S the two derived rows carry S·f and S·(1−f), which sum to S
exactly; f = 0 zeroes the dairy row and f = 1 zeroes the other row; and the
split produces exactly two derived rows per cattle row (every cattle row
contributes its dairy and other rows, and the split output has one row per
non-cattle row plus two per cattle row). -/
theorem C4_dairy_split_invariant :
    (∀ share : ℚ, 0 ≤ dairyFrac share ∧ dairyFrac share ≤ 1)
    ∧ (∀ (f : ℚ) (r : LongRow), (dairyRow f r).value + (otherRow f r).value = r.value)
    ∧ (∀ r : LongRow, (dairyRow 0 r).value = 0)
    ∧ (∀ r : LongRow, (otherRow 1 r).value = 0)
    ∧ (∀ (f : ℚ) (st : List LongRow) (r : LongRow), r ∈ st →
        looks_like_cattle r.Item = true →
        dairyRow f r ∈ splitStep true f st ∧ otherRow f r ∈ splitStep true f st)
    ∧ (∀ (f : ℚ) (st : List LongRow),
        (splitStep true f st).length =
          (st.filter (fun r => !looks_like_cattle r.Item)).length +
            2 * (st.filter (fun r => looks_like_cattle r.Item)).length) := by
  refine ⟨?_, ?_, ?_, ?_, ?_, ?_⟩
  · intro share
    exact ⟨le_max_left 0 _, max_le_iff.mpr ⟨by norm_num, min_le_left 1 _⟩⟩
  · intro f r
    simp only [dairyRow, otherRow]
    ring
  · intro r
    simp [dairyRow]
  · intro r
    simp [otherRow]
  · intro f st r hr hc
    have hd : dairyRow f r ∈ (st.filter (fun x => looks_like_cattle x.Item)).map (dairyRow f) :=
      List.mem_map_of_mem _ (List.mem_filter.mpr ⟨hr, hc⟩)
    have ho : otherRow f r ∈ (st.filter (fun x => looks_like_cattle x.Item)).map (otherRow f) :=
      List.mem_map_of_mem _ (List.mem_filter.mpr ⟨hr, hc⟩)
    constructor
    · exact List.mem_append_left _ (List.mem_append_right _ hd)
    · exact List.mem_append_right _ ho
  · intro f st
    have hsplit : splitStep true f st =
        st.filter (fun r => !looks_like_cattle r.Item)
          ++ (st.filter (fun r => looks_like_cattle r.Item)).map (dairyRow f)
          ++ (st.filter (fun r => looks_like_cattle r.Item)).map (otherRow f) := rfl
    rw [hsplit]
    simp only [List.length_append, List.length_map]
    omega

/-- Witness for C4, at a concrete cattle row and fraction 35 %. -/
theorem C4_witness :
    dairyRow (dairyFrac 35) cattleRowW ∈ splitStep true (dairyFrac 35) [cattleRowW]
      ∧ otherRow (dairyFrac 35) cattleRowW ∈ splitStep true (dairyFrac 35) [cattleRowW] :=
  C4_dairy_split_invariant.2.2.2.2.1 (dairyFrac 35) [cattleRowW] cattleRowW
    (List.mem_singleton.mpr rfl) (by decide)

/-! ### Claim C6 -/

/-- Claim C6: the LSU weight rules, tested in the fixed source order with
first match winning (each clause assumes all earlier conditions failed), and
each LSU value is the post-split stocks value times the weight of the
post-split item label. -/
theorem C6_lsu_weight_rules :
    (∀ item : String,
        (containsCI "dairy" item && (containsCI "cattle" item || containsCI "bovine" item)) = true →
        default_lsu_weight item = 1)
    ∧ (∀ item : String,
        (containsCI "dairy" item && (containsCI "cattle" item || containsCI "bovine" item)) = false →
        (containsCI "cattle" item || containsCI "bovine" item) = true →
        default_lsu_weight item = 8/10)
    ∧ (∀ item : String,
        (containsCI "dairy" item && (containsCI "cattle" item || containsCI "bovine" item)) = false →
        (containsCI "cattle" item || containsCI "bovine" item) = false →
        containsCI "buffalo" item = true →
        default_lsu_weight item = 1)
    ∧ (∀ item : String,
        (containsCI "dairy" item && (containsCI "cattle" item || containsCI "bovine" item)) = false →
        (containsCI "cattle" item || containsCI "bovine" item) = false →
        containsCI "buffalo" item = false →
        (containsCI "sheep" item || containsCI "goat" item) = true →
        default_lsu_weight item = 1/10)
    ∧ (∀ item : String,
        (containsCI "dairy" item && (containsCI "cattle" item || containsCI "bovine" item)) = false →
        (containsCI "cattle" item || containsCI "bovine" item) = false →
        containsCI "buffalo" item = false →
        (containsCI "sheep" item || containsCI "goat" item) = false →
        (containsCI "pig" item || containsCI "swine" item) = true →
        default_lsu_weight item = 3/10)
    ∧ (∀ item : String,
        (containsCI "dairy" item && (containsCI "cattle" item || containsCI "bovine" item)) = false →
        (containsCI "cattle" item || containsCI "bovine" item) = false →
        containsCI "buffalo" item = false →
        (containsCI "sheep" item || containsCI "goat" item) = false →
        (containsCI "pig" item || containsCI "swine" item) = false →
        (containsCI "poultry" item || containsCI "chicken" item || containsCI "turkey" item ||
          containsCI "duck" item) = true →
        default_lsu_weight item = 1/100)
    ∧ (∀ item : String,
        (containsCI "dairy" item && (containsCI "cattle" item || containsCI "bovine" item)) = false →
        (containsCI "cattle" item || containsCI "bovine" item) = false →
        containsCI "buffalo" item = false →
        (containsCI "sheep" item || containsCI "goat" item) = false →
        (containsCI "pig" item || containsCI "swine" item) = false →
        (containsCI "poultry" item || containsCI "chicken" item || containsCI "turkey" item ||
          containsCI "duck" item) = false →
        (containsCI "horse" item || containsCI "equid" item) = true →
        default_lsu_weight item = 8/10)
    ∧ (∀ item : String,
        (containsCI "dairy" item && (containsCI "cattle" item || containsCI "bovine" item)) = false →
        (containsCI "cattle" item || containsCI "bovine" item) = false →
        containsCI "buffalo" item = false →
        (containsCI "sheep" item || containsCI "goat" item) = false →
        (containsCI "pig" item || containsCI "swine" item) = false →
        (containsCI "poultry" item || containsCI "chicken" item || containsCI "turkey" item ||
          containsCI "duck" item) = false →
        (containsCI "horse" item || containsCI "equid" item) = false →
        default_lsu_weight item = 1)
    ∧ (∀ (split : Bool) (f : ℚ) (long : List LongRow) (r : LongRow),
        r ∈ splitStep split f (stocksRows long) →
        ({ Area := r.Area, Item := r.Item, year := r.year, Metric := .LSU,
           value := r.value * default_lsu_weight r.Item, kind := r.kind,
           isAllAnimals := r.isAllAnimals, isAtomic := r.isAtomic } : OutRow)
          ∈ lsuStage split f long) := by
  refine ⟨?_, ?_, ?_, ?_, ?_, ?_, ?_, ?_, ?_⟩
  · intro item h1
    simp [default_lsu_weight, h1]
  · intro item h1 h2
    have hd : containsCI "dairy" item = false := by
      cases hd : containsCI "dairy" item with
      | false => rfl
      | true =>
        rw [hd, h2] at h1
        simp at h1
    simp [default_lsu_weight, hd, h2]
  · intro item h1 h2 h3
    simp [default_lsu_weight, h1, h2, h3]
  · intro item h1 h2 h3 h4
    simp [default_lsu_weight, h1, h2, h3, h4]
  · intro item h1 h2 h3 h4 h5
    simp [default_lsu_weight, h1, h2, h3, h4, h5]
  · intro item h1 h2 h3 h4 h5 h6
    simp [default_lsu_weight, h1, h2, h3, h4, h5, h6]
  · intro item h1 h2 h3 h4 h5 h6 h7
    simp [default_lsu_weight, h1, h2, h3, h4, h5, h6, h7]
  · intro item h1 h2 h3 h4 h5 h6 h7
    simp [default_lsu_weight, h1, h2, h3, h4, h5, h6, h7]
  · intro split f long r hr
    exact List.mem_map_of_mem _ hr

/-- Witness for C6: every weight rule fires on a concrete label, and a
concrete stocks row yields its LSU row. -/
theorem C6_witness :
    default_lsu_weight "Cattle, dairy" = 1
    ∧ default_lsu_weight "Cattle" = 8/10
    ∧ default_lsu_weight "Buffalo" = 1
    ∧ default_lsu_weight "Goats" = 1/10
    ∧ default_lsu_weight "Swine, market" = 3/10
    ∧ default_lsu_weight "Turkeys" = 1/100
    ∧ default_lsu_weight "Horses" = 8/10
    ∧ default_lsu_weight "Camels" = 1
    ∧ ({ Area := "France", Item := "Goats", year := 2020, Metric := .LSU,
         value := (50 : ℚ) * default_lsu_weight "Goats", kind := .atomic,
         isAllAnimals := false, isAtomic := true } : OutRow)
        ∈ lsuStage false 0 [goatRowW] := by
  refine ⟨?_, ?_, ?_, ?_, ?_, ?_, ?_, ?_, ?_⟩
  · exact C6_lsu_weight_rules.1 _ (by decide)
  · exact C6_lsu_weight_rules.2.1 _ (by decide) (by decide)
  · exact C6_lsu_weight_rules.2.2.1 _ (by decide) (by decide) (by decide)
  · exact C6_lsu_weight_rules.2.2.2.1 _ (by decide) (by decide) (by decide) (by decide)
  · exact C6_lsu_weight_rules.2.2.2.2.1 _ (by decide) (by decide) (by decide) (by decide)
      (by decide)
  · exact C6_lsu_weight_rules.2.2.2.2.2.1 _ (by decide) (by decide) (by decide) (by decide)
      (by decide) (by decide)
  · exact C6_lsu_weight_rules.2.2.2.2.2.2.1 _ (by decide) (by decide) (by decide) (by decide)
      (by decide) (by decide) (by decide)
  · exact C6_lsu_weight_rules.2.2.2.2.2.2.2.1 _ (by decide) (by decide) (by decide) (by decide)
      (by decide) (by decide) (by decide)
  · exact C6_lsu_weight_rules.2.2.2.2.2.2.2.2 false 0 [goatRowW] goatRowW
      (List.mem_filter.mpr ⟨List.mem_singleton.mpr rfl, by decide⟩)

/-! ### Claim C3 -/

theorem sum_map_mul (c : ℚ) (l : List LongRow) :
    (l.map (fun r => r.value * c)).sum = c * (l.map (fun r => r.value)).sum := by
  induction l with
  | nil => simp
  | cons a t ih =>
    simp only [List.map_cons, List.sum_cons, ih]
    ring

/-- Scaling then groupby-summing a gas equals the GWP factor times the raw
per-key sum. -/
theorem sumAt_scaledGas (g : ElementNorm) (factor : ℚ) (long : List LongRow) (k : GKey) :
    sumAt (scaledGas g factor long) k = factor * gasKeySum g long k := by
  unfold sumAt scaledGas gasKeySum
  rw [List.filter_map, List.map_map]
  exact sum_map_mul factor _

/-- Every row of a gas stage carries the factor-scaled raw key sum. -/
theorem gasStage_value (m : MetricT) (g : ElementNorm) (factor : ℚ)
    (long : List LongRow) (r : OutRow) (hr : r ∈ gasStage m g factor long) :
    r.Metric = m ∧
    r.value = factor *
      gasKeySum g long (r.Area, r.Item, r.year, r.kind, r.isAllAnimals, r.isAtomic) := by
  rcases List.mem_map.mp hr with ⟨k, hk, rfl⟩
  exact ⟨rfl, sumAt_scaledGas g factor long k⟩

/-- Claim C3: the four named GWP factor pairs are AR4 = (25, 298),
AR5 = (28, 265), AR6_NOCCF = (27.2, 273), AR6_CCF = (29.8, 273); any
unrecognised (stripped, upper-cased) name selects the AR6_NOCCF pair; and with
"AR5" every CH4_CO2e value is 28 times the raw CH4 sum of its key and every
N2O_CO2e value is 265 times the raw N2O sum of its key (values sharing a key
are summed, not overwritten). -/
theorem C3_gwp_selection :
    gwp_pair "AR5" = (28, 265)
    ∧ gwp_pair "AR4" = (25, 298)
    ∧ gwp_pair "AR6_NOCCF" = (136/5, 273)
    ∧ gwp_pair "AR6_CCF" = (149/5, 273)
    ∧ (∀ name : String,
        uc (trimL name.data) ∉
          ["AR4".data, "AR5".data, "AR6_NOCCF".data, "AR6_CCF".data] →
        gwp_pair name = (136/5, 273))
    ∧ (∀ (long : List LongRow) (r : OutRow),
        r ∈ gasStage .CH4_CO2e .CH4 (gwp_pair "AR5").1 long →
        r.value = 28 *
          gasKeySum .CH4 long (r.Area, r.Item, r.year, r.kind, r.isAllAnimals, r.isAtomic))
    ∧ (∀ (long : List LongRow) (r : OutRow),
        r ∈ gasStage .N2O_CO2e .N2O (gwp_pair "AR5").2 long →
        r.value = 265 *
          gasKeySum .N2O long (r.Area, r.Item, r.year, r.kind, r.isAllAnimals, r.isAtomic)) := by
  refine ⟨rfl, rfl, rfl, rfl, ?_, ?_, ?_⟩
  · intro name h
    have h1 : ¬(uc (trimL name.data) = "AR4".data) := fun hh => h (by simp [hh])
    have h2 : ¬(uc (trimL name.data) = "AR5".data) := fun hh => h (by simp [hh])
    have h3 : ¬(uc (trimL name.data) = "AR6_NOCCF".data) := fun hh => h (by simp [hh])
    have h4 : ¬(uc (trimL name.data) = "AR6_CCF".data) := fun hh => h (by simp [hh])
    simp [gwp_pair, h1, h2, h3, h4]
  · intro long r hr
    exact (gasStage_value _ _ _ _ _ hr).2
  · intro long r hr
    exact (gasStage_value _ _ _ _ _ hr).2

/-- Witness for C3: the fallback fires on a concrete unrecognised name, and a
concrete two-row CH4 table is summed under its shared key and scaled by 28. -/
theorem C3_witness :
    gwp_pair "unrecognised" = (136/5, 273)
    ∧ (rowOfKey .CH4_CO2e keyW (sumAt (scaledGas .CH4 (gwp_pair "AR5").1 ch4RowsW) keyW)).value
        = 28 * gasKeySum .CH4 ch4RowsW keyW := by
  constructor
  · exact C3_gwp_selection.2.2.2.2.1 "unrecognised" (by decide)
  · exact C3_gwp_selection.2.2.2.2.2.1 ch4RowsW _
      (List.mem_map_of_mem _ (by decide))

/-! ### Claim C5: replacement lemmas -/

theorem replaceCattle_match (repl : List Char) (c r1 r2 r3 r4 r5 : Char) (rest2 : List Char)
    (h : isPre "cattle".data (lc (c :: r1 :: r2 :: r3 :: r4 :: r5 :: rest2)) = true) :
    replaceCattle repl (c :: r1 :: r2 :: r3 :: r4 :: r5 :: rest2) =
      repl ++ replaceCattle repl rest2 := by
  simp [replaceCattle, h]

theorem replaceCattle_nomatch (repl : List Char) (c : Char) (rest : List Char)
    (h : isPre "cattle".data (lc (c :: rest)) = false) :
    replaceCattle repl (c :: rest) = c :: replaceCattle repl rest := by
  rcases rest with _ | ⟨r1, _ | ⟨r2, _ | ⟨r3, _ | ⟨r4, _ | ⟨r5, rest2⟩⟩⟩⟩⟩ <;>
    simp [replaceCattle, h]

theorem exists_five (rest : List Char) (h : 5 ≤ rest.length) :
    ∃ r1 r2 r3 r4 r5 rest2, rest = r1 :: r2 :: r3 :: r4 :: r5 :: rest2 := by
  rcases rest with _ | ⟨r1, rest⟩
  · simp at h
  rcases rest with _ | ⟨r2, rest⟩
  · simp at h
  rcases rest with _ | ⟨r3, rest⟩
  · simp at h
  rcases rest with _ | ⟨r4, rest⟩
  · simp at h
  rcases rest with _ | ⟨r5, rest⟩
  · simp at h
  exact ⟨r1, r2, r3, r4, r5, rest, rfl⟩

/-- A successful case-insensitive "cattle" match leaves at least five
characters after the head. -/
theorem five_of_match {c : Char} {rest : List Char}
    (hm : isPre "cattle".data (lc (c :: rest)) = true) : 5 ≤ rest.length := by
  have h := isPre_length hm
  simp [lc] at h
  omega

/-- If the label contains "cattle" (case-insensitively), the replacement
output contains the lower-cased replacement text as a substring. -/
theorem replaceCattle_contains_repl (repl : List Char) :
    ∀ (n : Nat) (l : List Char), l.length ≤ n →
      containsSub "cattle".data (lc l) = true →
      containsSub (lc repl) (lc (replaceCattle repl l)) = true := by
  intro n
  induction n with
  | zero =>
    intro l hl hc
    have hnil : l = [] := List.length_eq_zero.mp (Nat.le_zero.mp hl)
    subst hnil
    exact absurd hc (by decide)
  | succ n ih =>
    intro l hl hc
    cases l with
    | nil => exact absurd hc (by decide)
    | cons c rest =>
      cases hm : isPre "cattle".data (lc (c :: rest)) with
      | true =>
        obtain ⟨r1, r2, r3, r4, r5, rest2, rfl⟩ := exists_five rest (five_of_match hm)
        rw [replaceCattle_match repl _ _ _ _ _ _ _ hm]
        have : lc (repl ++ replaceCattle repl rest2)
            = lc repl ++ lc (replaceCattle repl rest2) := by simp [lc]
        rw [this]
        exact isPre_containsSub (isPre_append_self _ _)
      | false =>
        rw [replaceCattle_nomatch repl c rest hm]
        have hc' : containsSub "cattle".data (Char.toLower c :: lc rest) = true := by
          simpa [lc] using hc
        have hm' : isPre "cattle".data (Char.toLower c :: lc rest) = false := by
          simpa [lc] using hm
        have hrest : containsSub "cattle".data (lc rest) = true := by
          rw [show containsSub "cattle".data (Char.toLower c :: lc rest)
              = (isPre "cattle".data (Char.toLower c :: lc rest)
                  || containsSub "cattle".data (lc rest)) from rfl] at hc'
          simpa [hm'] using hc'
        have hn : rest.length ≤ n := by
          simp at hl
          omega
        simpa [lc] using containsSub_cons (Char.toLower c) (ih rest hn hrest)

/-- No suffix of "dairy" is created by the "Cattle (other)" replacement: a
prefix match of such a suffix on the replaced text was already there. -/
theorem replaceCattle_other_pre :
    ∀ (n : Nat) (l : List Char), l.length ≤ n → ∀ p,
      p ∈ ["dairy".data, "airy".data, "iry".data, "ry".data, "y".data] →
      isPre p (lc (replaceCattle "Cattle (other)".data l)) = true →
      isPre p (lc l) = true := by
  intro n
  induction n with
  | zero =>
    intro l hl p _ hpre
    have hnil : l = [] := List.length_eq_zero.mp (Nat.le_zero.mp hl)
    subst hnil
    exact hpre
  | succ n ih =>
    intro l hl p hp hpre
    cases l with
    | nil => exact hpre
    | cons c rest =>
      cases hm : isPre "cattle".data (lc (c :: rest)) with
      | true =>
        obtain ⟨r1, r2, r3, r4, r5, rest2, rfl⟩ := exists_five rest (five_of_match hm)
        rw [replaceCattle_match _ _ _ _ _ _ _ _ hm] at hpre
        have hpre' : isPre p
            ("cattle (other)".data ++ lc (replaceCattle "Cattle (other)".data rest2))
              = true := by simpa [lc] using hpre
        simp only [List.mem_cons, List.not_mem_nil, or_false] at hp
        rcases hp with rfl | rfl | rfl | rfl | rfl <;>
          exact absurd hpre' (by simp [isPre])
      | false =>
        rw [replaceCattle_nomatch _ _ _ hm] at hpre
        have hpre' : isPre p
            (Char.toLower c :: lc (replaceCattle "Cattle (other)".data rest)) = true := by
          simpa [lc] using hpre
        have hn : rest.length ≤ n := by
          simp at hl
          omega
        suffices hgoal : isPre p (Char.toLower c :: lc rest) = true by
          simpa [lc] using hgoal
        simp only [List.mem_cons, List.not_mem_nil, or_false] at hp
        rcases hp with rfl | rfl | rfl | rfl | rfl
        · rw [show isPre "dairy".data (Char.toLower c :: lc (replaceCattle "Cattle (other)".data rest))
              = (('d' == Char.toLower c) && isPre "airy".data (lc (replaceCattle "Cattle (other)".data rest))) from rfl,
            Bool.and_eq_true] at hpre'
          have htail := ih rest hn "airy".data (by simp) hpre'.2
          show (('d' == Char.toLower c) && isPre "airy".data (lc rest)) = true
          simp [hpre'.1, htail]
        · rw [show isPre "airy".data (Char.toLower c :: lc (replaceCattle "Cattle (other)".data rest))
              = (('a' == Char.toLower c) && isPre "iry".data (lc (replaceCattle "Cattle (other)".data rest))) from rfl,
            Bool.and_eq_true] at hpre'
          have htail := ih rest hn "iry".data (by simp) hpre'.2
          show (('a' == Char.toLower c) && isPre "iry".data (lc rest)) = true
          simp [hpre'.1, htail]
        · rw [show isPre "iry".data (Char.toLower c :: lc (replaceCattle "Cattle (other)".data rest))
              = (('i' == Char.toLower c) && isPre "ry".data (lc (replaceCattle "Cattle (other)".data rest))) from rfl,
            Bool.and_eq_true] at hpre'
          have htail := ih rest hn "ry".data (by simp) hpre'.2
          show (('i' == Char.toLower c) && isPre "ry".data (lc rest)) = true
          simp [hpre'.1, htail]
        · rw [show isPre "ry".data (Char.toLower c :: lc (replaceCattle "Cattle (other)".data rest))
              = (('r' == Char.toLower c) && isPre "y".data (lc (replaceCattle "Cattle (other)".data rest))) from rfl,
            Bool.and_eq_true] at hpre'
          have htail := ih rest hn "y".data (by simp) hpre'.2
          show (('r' == Char.toLower c) && isPre "y".data (lc rest)) = true
          simp [hpre'.1, htail]
        · rw [show isPre "y".data (Char.toLower c :: lc (replaceCattle "Cattle (other)".data rest))
              = (('y' == Char.toLower c) && isPre [] (lc (replaceCattle "Cattle (other)".data rest))) from rfl,
            Bool.and_eq_true] at hpre'
          show (('y' == Char.toLower c) && isPre [] (lc rest)) = true
          simp [hpre'.1, isPre]

/-- The "Cattle (other)" replacement never introduces "dairy": if the replaced
text contains it, the original already did. -/
theorem replaceCattle_other_noDairy :
    ∀ (n : Nat) (l : List Char), l.length ≤ n →
      containsSub "dairy".data (lc (replaceCattle "Cattle (other)".data l)) = true →
      containsSub "dairy".data (lc l) = true := by
  intro n
  induction n with
  | zero =>
    intro l hl hc
    have hnil : l = [] := List.length_eq_zero.mp (Nat.le_zero.mp hl)
    subst hnil
    exact hc
  | succ n ih =>
    intro l hl hc
    cases l with
    | nil => exact hc
    | cons c rest =>
      cases hm : isPre "cattle".data (lc (c :: rest)) with
      | true =>
        obtain ⟨r1, r2, r3, r4, r5, rest2, rfl⟩ := exists_five rest (five_of_match hm)
        rw [replaceCattle_match _ _ _ _ _ _ _ _ hm] at hc
        have hc' : containsSub "dairy".data
            ("cattle (other)".data ++ lc (replaceCattle "Cattle (other)".data rest2))
              = true := by simpa [lc] using hc
        rw [show containsSub "dairy".data
            ("cattle (other)".data ++ lc (replaceCattle "Cattle (other)".data rest2))
              = containsSub "dairy".data (lc (replaceCattle "Cattle (other)".data rest2))
            from rfl] at hc'
        have hn : rest2.length ≤ n := by
          simp at hl
          omega
        have htail := ih rest2 hn hc'
        simpa [lc] using
          containsSub_cons (Char.toLower c) (containsSub_cons (Char.toLower r1)
            (containsSub_cons (Char.toLower r2) (containsSub_cons (Char.toLower r3)
              (containsSub_cons (Char.toLower r4) (containsSub_cons (Char.toLower r5) htail)))))
      | false =>
        rw [replaceCattle_nomatch _ _ _ hm] at hc
        have hc' : (isPre "dairy".data
              (Char.toLower c :: lc (replaceCattle "Cattle (other)".data rest))
            || containsSub "dairy".data (lc (replaceCattle "Cattle (other)".data rest)))
              = true := by simpa [lc, containsSub] using hc
        have hn : rest.length ≤ n := by
          simp at hl
          omega
        have hc2 : isPre "dairy".data
              (Char.toLower c :: lc (replaceCattle "Cattle (other)".data rest)) = true
            ∨ containsSub "dairy".data (lc (replaceCattle "Cattle (other)".data rest)) = true := by
          simpa using hc'
        rcases hc2 with hpre | htail
        · rw [show isPre "dairy".data
              (Char.toLower c :: lc (replaceCattle "Cattle (other)".data rest))
                = (('d' == Char.toLower c)
                    && isPre "airy".data (lc (replaceCattle "Cattle (other)".data rest)))
              from rfl, Bool.and_eq_true] at hpre
          have hairy := replaceCattle_other_pre n rest hn "airy".data (by simp) hpre.2
          have hfull : isPre "dairy".data (Char.toLower c :: lc rest) = true := by
            show (('d' == Char.toLower c) && isPre "airy".data (lc rest)) = true
            simp [hpre.1, hairy]
          simpa [lc] using isPre_containsSub hfull
        · simpa [lc] using containsSub_cons (Char.toLower c) (ih rest hn htail)

/-- Weight of the dairy replacement of a label containing "cattle". -/
theorem dairy_weight_of_cattle (item : String) (hc : containsCI "cattle" item = true) :
    default_lsu_weight (replaceCattleStr "Cattle (dairy)" item) = 1 := by
  have hrepl := replaceCattle_contains_repl "Cattle (dairy)".data item.data.length
    item.data (le_refl _) hc
  have hlc : lc "Cattle (dairy)".data = "cattle (dairy)".data := by decide
  rw [hlc] at hrepl
  have hdairy : containsCI "dairy" (replaceCattleStr "Cattle (dairy)" item) = true :=
    containsSub_trans (by decide) hrepl
  have hcattle : containsCI "cattle" (replaceCattleStr "Cattle (dairy)" item) = true :=
    containsSub_trans (by decide) hrepl
  simp [default_lsu_weight, hdairy, hcattle]

/-- Weight of the non-dairy replacement of a label containing "cattle" but not
"dairy". -/
theorem other_weight_of_cattle (item : String) (hc : containsCI "cattle" item = true)
    (hd : containsCI "dairy" item = false) :
    default_lsu_weight (replaceCattleStr "Cattle (other)" item) = 8/10 := by
  have hrepl := replaceCattle_contains_repl "Cattle (other)".data item.data.length
    item.data (le_refl _) hc
  have hlc : lc "Cattle (other)".data = "cattle (other)".data := by decide
  rw [hlc] at hrepl
  have hcattle : containsCI "cattle" (replaceCattleStr "Cattle (other)" item) = true :=
    containsSub_trans (by decide) hrepl
  have hdairy : containsCI "dairy" (replaceCattleStr "Cattle (other)" item) = false := by
    cases hdd : containsCI "dairy" (replaceCattleStr "Cattle (other)" item) with
    | false => rfl
    | true =>
      have h0 := replaceCattle_other_noDairy item.data.length item.data (le_refl _) hdd
      have h1 : containsCI "dairy" item = true := h0
      rw [h1] at hd
      exact absurd hd (by simp)
  simp [default_lsu_weight, hdairy, hcattle]

/-! ### Claim C5 -/

/-- Claim C5 as frozen is false on the code: the item label "Bovine" is split
(it matches the cattle-or-bovine test) but contains no "cattle" substring, so
both replacement rows keep the label "Bovine" and both receive LSU weight 0.8
— the dairy replacement row does not receive weight 1.0.  On a 100-head
Bovine stocks row with fraction 1/2 both LSU values are 100·(1/2)·0.8 = 40,
where the claim predicts 100·(1/2)·1.0 = 50 for the dairy row. -/
theorem C5_counterexample :
    looks_like_cattle "Bovine" = true
    ∧ (dairyRow (1/2) bovineRowW).Item = "Bovine"
    ∧ default_lsu_weight ((dairyRow (1/2) bovineRowW).Item) = 8/10
    ∧ (lsuStage true (1/2) [bovineRowW]).map (fun r => r.value)
        = [(100 : ℚ) * (1/2) * (8/10), 100 * (1 - 1/2) * (8/10)] := by
  have h1 : containsCI "dairy" "Bovine" = false := by decide
  have h2 : containsCI "bovine" "Bovine" = true := by decide
  have hw : default_lsu_weight "Bovine" = 8/10 := by
    simp [default_lsu_weight, h1, h2]
  refine ⟨by decide, by decide, ?_, ?_⟩
  · show default_lsu_weight "Bovine" = 8/10
    exact hw
  · show [bovineRowW.value * (1/2) * default_lsu_weight "Bovine",
          bovineRowW.value * (1 - 1/2) * default_lsu_weight "Bovine"] = _
    rw [hw]
    norm_num [bovineRowW]

/-- Claim C5 (amended): with the split enabled, every cattle-or-bovine row
(case-insensitive substring test) is replaced by a dairy and an other row
whose labels have every occurrence of "cattle" (any casing) replaced by
"Cattle (dairy)" / "Cattle (other)", both reclassified as atomic kind;
non-cattle rows pass through unchanged; the split happens before the LSU
weight lookup (each LSU value uses the post-split label); and — provided the
original label contains "cattle" and does not contain "dairy"
(case-insensitively) — the dairy replacement row receives LSU weight 1.0 and
the other replacement row receives weight 0.8. -/
theorem C5_cattle_split :
    (∀ (f : ℚ) (st : List LongRow) (r : LongRow), r ∈ st →
        looks_like_cattle r.Item = false → r ∈ splitStep true f st)
    ∧ (∀ (f : ℚ) (st : List LongRow) (r : LongRow), r ∈ st →
        looks_like_cattle r.Item = true →
        dairyRow f r ∈ splitStep true f st ∧ otherRow f r ∈ splitStep true f st)
    ∧ (∀ (f : ℚ) (r : LongRow),
        (dairyRow f r).Item = replaceCattleStr "Cattle (dairy)" r.Item
        ∧ (otherRow f r).Item = replaceCattleStr "Cattle (other)" r.Item
        ∧ (dairyRow f r).kind = Kind.atomic ∧ (dairyRow f r).isAtomic = true
        ∧ (dairyRow f r).isAllAnimals = false
        ∧ (otherRow f r).kind = Kind.atomic ∧ (otherRow f r).isAtomic = true
        ∧ (otherRow f r).isAllAnimals = false)
    ∧ (∀ (split : Bool) (f : ℚ) (long : List LongRow) (r : LongRow),
        r ∈ splitStep split f (stocksRows long) →
        ({ Area := r.Area, Item := r.Item, year := r.year, Metric := .LSU,
           value := r.value * default_lsu_weight r.Item, kind := r.kind,
           isAllAnimals := r.isAllAnimals, isAtomic := r.isAtomic } : OutRow)
          ∈ lsuStage split f long)
    ∧ (∀ (f : ℚ) (r : LongRow),
        containsCI "cattle" r.Item = true → containsCI "dairy" r.Item = false →
        default_lsu_weight (dairyRow f r).Item = 1
          ∧ default_lsu_weight (otherRow f r).Item = 8/10) := by
  refine ⟨?_, ?_, ?_, ?_, ?_⟩
  · intro f st r hr hnc
    exact List.mem_append_left _ (List.mem_append_left _
      (List.mem_filter.mpr ⟨hr, by simp [hnc]⟩))
  · intro f st r hr hc
    constructor
    · exact List.mem_append_left _ (List.mem_append_right _
        (List.mem_map_of_mem _ (List.mem_filter.mpr ⟨hr, hc⟩)))
    · exact List.mem_append_right _
        (List.mem_map_of_mem _ (List.mem_filter.mpr ⟨hr, hc⟩))
  · intro f r
    exact ⟨rfl, rfl, rfl, rfl, rfl, rfl, rfl, rfl⟩
  · intro split f long r hr
    exact List.mem_map_of_mem _ hr
  · intro f r hc hd
    exact ⟨dairy_weight_of_cattle r.Item hc, other_weight_of_cattle r.Item hc hd⟩

/-- Witness for the amended C5, at a concrete cattle row and a concrete
non-cattle row. -/
theorem C5_witness :
    goatRowW ∈ splitStep true (dairyFrac 35) [goatRowW, cattleRowW]
    ∧ dairyRow (dairyFrac 35) cattleRowW ∈ splitStep true (dairyFrac 35) [goatRowW, cattleRowW]
    ∧ default_lsu_weight (dairyRow (dairyFrac 35) cattleRowW).Item = 1
    ∧ default_lsu_weight (otherRow (dairyFrac 35) cattleRowW).Item = 8/10
    ∧ ({ Area := "France", Item := "Goats", year := 2020, Metric := .LSU,
         value := (50 : ℚ) * default_lsu_weight "Goats", kind := .atomic,
         isAllAnimals := false, isAtomic := true } : OutRow)
        ∈ lsuStage false (dairyFrac 35) [goatRowW] := by
  refine ⟨?_, ?_, ?_, ?_, ?_⟩
  · exact C5_cattle_split.1 (dairyFrac 35) _ goatRowW (by simp) (by decide)
  · exact (C5_cattle_split.2.1 (dairyFrac 35) _ cattleRowW (by simp) (by decide)).1
  · exact (C5_cattle_split.2.2.2.2 (dairyFrac 35) cattleRowW (by decide) (by decide)).1
  · exact (C5_cattle_split.2.2.2.2 (dairyFrac 35) cattleRowW (by decide) (by decide)).2
  · exact C5_cattle_split.2.2.2.1 false (dairyFrac 35) [goatRowW] goatRowW
      (List.mem_filter.mpr ⟨List.mem_singleton.mpr rfl, by decide⟩)

/-! ### Claim C2: key-consistency layer -/

/-- In a duplicate-free list in which every element satisfying `p` equals `a`,
the `p`-filter is empty or exactly `[a]`. -/
theorem filter_nodup_sub_singleton {α : Type} [DecidableEq α] (p : α → Bool) (a : α) :
    ∀ l : List α, l.Nodup → (∀ x ∈ l, p x = true → x = a) →
      l.filter p = [] ∨ l.filter p = [a] := by
  intro l
  induction l with
  | nil =>
    intro _ _
    exact Or.inl rfl
  | cons x xs ih =>
    intro hnd hall
    rcases List.nodup_cons.mp hnd with ⟨hx, hnd2⟩
    cases hp : p x with
    | false =>
      rw [List.filter_cons]
      simp only [hp, Bool.false_eq_true, if_false]
      exact ih hnd2 (fun y hy hpy => hall y (List.mem_cons_of_mem _ hy) hpy)
    | true =>
      have hxa : x = a := hall x (List.mem_cons_self x xs) hp
      subst hxa
      have hnil : xs.filter p = [] :=
        List.filter_eq_nil_iff.mpr (fun y hy hpy => hx ((hall y (List.mem_cons_of_mem _ hy) hpy) ▸ hy))
      rw [List.filter_cons]
      right
      simp [hp, hnil]

theorem flagsOk_keyOf {r : LongRow} (h : flagsOk r) : keyOf r = fullKey (tripleOf r) := by
  rcases h with ⟨h1, h2, h3⟩
  simp [keyOf, fullKey, tripleOf, h1, h2, h3]

theorem tripleOfKey_fullKey (t : String × String × Nat) : tripleOfKey (fullKey t) = t := rfl

theorem scaledGas_flagsOk {g : ElementNorm} {f : ℚ} {long : List LongRow}
    (h : ∀ r ∈ long, flagsOk r) : ∀ r ∈ scaledGas g f long, flagsOk r := by
  intro r hr
  rcases List.mem_map.mp hr with ⟨r0, hr0, rfl⟩
  exact h r0 (List.mem_filter.mp hr0).1

theorem groupKeys_key_eq {rows : List LongRow} (hcons : ∀ r ∈ rows, flagsOk r)
    {k : GKey} (hk : k ∈ groupKeys rows) {t : String × String × Nat}
    (ht : tripleOfKey k = t) : k = fullKey t := by
  rcases List.mem_map.mp (List.mem_dedup.mp hk) with ⟨r, hr, rfl⟩
  rw [flagsOk_keyOf (hcons r hr)] at ht ⊢
  rw [tripleOfKey_fullKey] at ht
  rw [ht]

theorem sumAt_zero_of_not_mem {rows : List LongRow} {k : GKey}
    (h : k ∉ groupKeys rows) : sumAt rows k = 0 := by
  have hnil : rows.filter (fun r => keyOf r == k) = [] :=
    List.filter_eq_nil_iff.mpr (fun r hr hkr => by
      refine h (List.mem_dedup.mpr ?_)
      rw [← (beq_iff_eq.mp hkr)]
      exact List.mem_map_of_mem _ hr)
  simp [sumAt, hnil]

/-- Under key consistency, the metric-`m` sum of a gas stage at a triple is
the groupby cell value of that triple's full key. -/
theorem metricSumAt_gasStage {long : List LongRow} (hcons : ∀ r ∈ long, flagsOk r)
    (m : MetricT) (g : ElementNorm) (f : ℚ) (t : String × String × Nat) :
    metricSumAt m (gasStage m g f long) t = sumAt (scaledGas g f long) (fullKey t) := by
  have hsc : ∀ r ∈ scaledGas g f long, flagsOk r := scaledGas_flagsOk hcons
  unfold metricSumAt gasStage
  rw [List.filter_map, List.map_map]
  have hpred : ((fun r : OutRow => r.Metric == m && outTripleOf r == t) ∘
      (fun k => rowOfKey m k (sumAt (scaledGas g f long) k)))
      = fun k => tripleOfKey k == t := by
    funext k
    simp [Function.comp, rowOfKey, outTripleOf, tripleOfKey]
  rw [hpred]
  rcases filter_nodup_sub_singleton (fun k => tripleOfKey k == t) (fullKey t)
      (groupKeys (scaledGas g f long)) (List.nodup_dedup _)
      (fun k hk hkt => groupKeys_key_eq hsc hk (beq_iff_eq.mp hkt)) with hnil | hone
  · rw [hnil]
    have hnotin : fullKey t ∉ groupKeys (scaledGas g f long) := by
      intro hin
      have : fullKey t ∈ (groupKeys (scaledGas g f long)).filter
          (fun k => tripleOfKey k == t) :=
        List.mem_filter.mpr ⟨hin, by simp [tripleOfKey_fullKey]⟩
      rw [hnil] at this
      exact absurd this (List.not_mem_nil _)
    simp [sumAt_zero_of_not_mem hnotin]
  · rw [hone]
    simp [Function.comp, rowOfKey]

/-- Under key consistency, the Total stage's sum at a triple is the CH4 cell
plus the N2O cell of the triple's full key. -/
theorem metricSumAt_totalStage {long : List LongRow} (hcons : ∀ r ∈ long, flagsOk r)
    (f1 f2 : ℚ) (t : String × String × Nat) :
    metricSumAt MetricT.Total_CO2e (totalStage f1 f2 long) t =
      sumAt (scaledGas .CH4 f1 long) (fullKey t) + sumAt (scaledGas .N2O f2 long) (fullKey t) := by
  have hc : ∀ r ∈ scaledGas .CH4 f1 long, flagsOk r := scaledGas_flagsOk hcons
  have hn : ∀ r ∈ scaledGas .N2O f2 long, flagsOk r := scaledGas_flagsOk hcons
  unfold metricSumAt totalStage
  rw [List.filter_map, List.map_map]
  have hpred : ((fun r : OutRow => r.Metric == MetricT.Total_CO2e && outTripleOf r == t) ∘
      (fun k => rowOfKey MetricT.Total_CO2e k
        (sumAt (scaledGas .CH4 f1 long) k + sumAt (scaledGas .N2O f2 long) k)))
      = fun k => tripleOfKey k == t := by
    funext k
    simp [Function.comp, rowOfKey, outTripleOf, tripleOfKey]
  rw [hpred]
  have hall : ∀ k ∈ (groupKeys (scaledGas .CH4 f1 long)
      ++ groupKeys (scaledGas .N2O f2 long)).dedup,
      (fun k => tripleOfKey k == t) k = true → k = fullKey t := by
    intro k hk hkt
    rcases List.mem_append.mp (List.mem_dedup.mp hk) with h | h
    · exact groupKeys_key_eq hc h (beq_iff_eq.mp hkt)
    · exact groupKeys_key_eq hn h (beq_iff_eq.mp hkt)
  rcases filter_nodup_sub_singleton (fun k => tripleOfKey k == t) (fullKey t)
      _ (List.nodup_dedup _) hall with hnil | hone
  · rw [hnil]
    have hnotin : fullKey t ∉ (groupKeys (scaledGas .CH4 f1 long)
        ++ groupKeys (scaledGas .N2O f2 long)).dedup := by
      intro hin
      have : fullKey t ∈ ((groupKeys (scaledGas .CH4 f1 long)
          ++ groupKeys (scaledGas .N2O f2 long)).dedup).filter
          (fun k => tripleOfKey k == t) :=
        List.mem_filter.mpr ⟨hin, by simp [tripleOfKey_fullKey]⟩
      rw [hnil] at this
      exact absurd this (List.not_mem_nil _)
    have h1 : fullKey t ∉ groupKeys (scaledGas .CH4 f1 long) := fun h =>
      hnotin (List.mem_dedup.mpr (List.mem_append.mpr (Or.inl h)))
    have h2 : fullKey t ∉ groupKeys (scaledGas .N2O f2 long) := fun h =>
      hnotin (List.mem_dedup.mpr (List.mem_append.mpr (Or.inr h)))
    simp [sumAt_zero_of_not_mem h1, sumAt_zero_of_not_mem h2]
  · rw [hone]
    simp [Function.comp, rowOfKey]

theorem metricSumAt_append (m : MetricT) (a b : List OutRow) (t : String × String × Nat) :
    metricSumAt m (a ++ b) t = metricSumAt m a t + metricSumAt m b t := by
  simp [metricSumAt, List.filter_append]

theorem metricSumAt_zero_of (m : MetricT) (out : List OutRow) (t : String × String × Nat)
    (h : ∀ r ∈ out, (r.Metric == m) = false) : metricSumAt m out t = 0 := by
  have hnil : out.filter (fun r => r.Metric == m && outTripleOf r == t) = [] :=
    List.filter_eq_nil_iff.mpr (fun r hr => by simp [h r hr])
  simp [metricSumAt, hnil]

theorem stocksStage_metric {long : List LongRow} {r : OutRow}
    (h : r ∈ stocksStage long) : r.Metric = MetricT.Stocks := by
  rcases List.mem_map.mp h with ⟨r0, _, rfl⟩
  rfl

theorem totalStage_metric {f1 f2 : ℚ} {long : List LongRow} {r : OutRow}
    (h : r ∈ totalStage f1 f2 long) : r.Metric = MetricT.Total_CO2e := by
  rcases List.mem_map.mp h with ⟨k, _, rfl⟩
  rfl

theorem lsuStage_metric {s : Bool} {f : ℚ} {long : List LongRow} {r : OutRow}
    (h : r ∈ lsuStage s f long) : r.Metric = MetricT.LSU := by
  rcases List.mem_map.mp h with ⟨r0, _, rfl⟩
  rfl

theorem filter_stage_nil {out : List OutRow} {m : MetricT} (t : String × String × Nat)
    (h : ∀ r ∈ out, r.Metric ≠ m) :
    out.filter (fun r => r.Metric == m && outTripleOf r == t) = [] :=
  List.filter_eq_nil_iff.mpr (fun r hr => by
    simp only [Bool.and_eq_true, beq_iff_eq]
    rintro ⟨h1, -⟩
    exact h r hr h1)

/-- Membership of a triple among a gas stage's rows is membership of its full
key among the stage's group keys. -/
theorem gasStage_triple_iff {long : List LongRow} (hcons : ∀ r ∈ long, flagsOk r)
    (m : MetricT) (g : ElementNorm) (f : ℚ) (t : String × String × Nat) :
    (∃ r ∈ gasStage m g f long, outTripleOf r = t)
      ↔ fullKey t ∈ groupKeys (scaledGas g f long) := by
  constructor
  · rintro ⟨r, hr, ht⟩
    rcases List.mem_map.mp hr with ⟨k, hk, rfl⟩
    have : tripleOfKey k = t := ht
    rw [← groupKeys_key_eq (scaledGas_flagsOk hcons) hk this]
    exact hk
  · intro hk
    exact ⟨rowOfKey m (fullKey t) (sumAt (scaledGas g f long) (fullKey t)),
      List.mem_map_of_mem _ hk, rfl⟩

theorem totalStage_triple_iff {long : List LongRow} (hcons : ∀ r ∈ long, flagsOk r)
    (f1 f2 : ℚ) (t : String × String × Nat) :
    (∃ r ∈ totalStage f1 f2 long, outTripleOf r = t)
      ↔ (fullKey t ∈ groupKeys (scaledGas .CH4 f1 long)
          ∨ fullKey t ∈ groupKeys (scaledGas .N2O f2 long)) := by
  constructor
  · rintro ⟨r, hr, ht⟩
    rcases List.mem_map.mp hr with ⟨k, hk, rfl⟩
    have htk : tripleOfKey k = t := ht
    have hk2 := List.mem_append.mp (List.mem_dedup.mp hk)
    rcases hk2 with h | h
    · exact Or.inl (groupKeys_key_eq (scaledGas_flagsOk hcons) h htk ▸ h)
    · exact Or.inr (groupKeys_key_eq (scaledGas_flagsOk hcons) h htk ▸ h)
  · intro hk
    refine ⟨rowOfKey MetricT.Total_CO2e (fullKey t)
      (sumAt (scaledGas .CH4 f1 long) (fullKey t) + sumAt (scaledGas .N2O f2 long) (fullKey t)),
      List.mem_map_of_mem _ ?_, rfl⟩
    rcases hk with h | h
    · exact List.mem_dedup.mpr (List.mem_append.mpr (Or.inl h))
    · exact List.mem_dedup.mpr (List.mem_append.mpr (Or.inr h))

/-! ### Claim C2 -/

/-- Claim C2: every row the melt step produces has taxonomy columns agreeing
with its item label; and on any such consistent long table, a Total_CO2e row
exists for an (Area, Item, Year) key iff a CH4_CO2e or an N2O_CO2e row exists
for it (union of keys); there is at most one Total_CO2e row per key; and its
value is the key's CH4_CO2e value plus its N2O_CO2e value, a missing side
contributing 0.  (`prepared` is the per-country output whose code the claim
cites; region totals are separate synthetic areas appended afterwards.) -/
theorem C2_total_invariant :
    (∀ (cols : List String) (nrows : List NormRow) (r : LongRow),
        r ∈ meltStep cols nrows → flagsOk r)
    ∧ (∀ (gwpName : String) (split : Bool) (f : ℚ) (long : List LongRow),
        (∀ r ∈ long, flagsOk r) →
        ∀ t : String × String × Nat,
          ((∃ r ∈ prepared gwpName split f long,
              r.Metric = MetricT.Total_CO2e ∧ outTripleOf r = t)
            ↔ ((∃ r ∈ prepared gwpName split f long,
                  r.Metric = MetricT.CH4_CO2e ∧ outTripleOf r = t)
                ∨ (∃ r ∈ prepared gwpName split f long,
                    r.Metric = MetricT.N2O_CO2e ∧ outTripleOf r = t)))
          ∧ (∀ r ∈ prepared gwpName split f long,
              r.Metric = MetricT.Total_CO2e → outTripleOf r = t →
              r.value = metricSumAt MetricT.CH4_CO2e (prepared gwpName split f long) t
                + metricSumAt MetricT.N2O_CO2e (prepared gwpName split f long) t)
          ∧ ((prepared gwpName split f long).filter
              (fun r => r.Metric == MetricT.Total_CO2e && outTripleOf r == t)).length ≤ 1) := by
  constructor
  · intro cols nrows r hr
    rcases List.mem_flatMap.mp hr with ⟨nr, _, hmem⟩
    rcases List.mem_map.mp hmem with ⟨p, _, rfl⟩
    exact ⟨rfl, rfl, rfl⟩
  · intro gwpName split f long hcons t
    have hch4 : ∀ r ∈ gasStage MetricT.CH4_CO2e .CH4 (gwp_pair gwpName).1 long,
        r.Metric = MetricT.CH4_CO2e := fun r hr => (gasStage_value _ _ _ _ _ hr).1
    have hn2o : ∀ r ∈ gasStage MetricT.N2O_CO2e .N2O (gwp_pair gwpName).2 long,
        r.Metric = MetricT.N2O_CO2e := fun r hr => (gasStage_value _ _ _ _ _ hr).1
    -- membership in `prepared` with a given metric pins down the stage
    have hmemTot : ∀ r, r ∈ prepared gwpName split f long → r.Metric = MetricT.Total_CO2e →
        r ∈ totalStage (gwp_pair gwpName).1 (gwp_pair gwpName).2 long := by
      intro r hr hm
      rcases List.mem_append.mp hr with hr | hr5
      rotate_left
      · rw [lsuStage_metric hr5] at hm
        exact absurd hm (by simp)
      rcases List.mem_append.mp hr with hr | hr4
      rotate_left
      · exact hr4
      rcases List.mem_append.mp hr with hr | hr3
      rotate_left
      · rw [hn2o r hr3] at hm
        exact absurd hm (by simp)
      rcases List.mem_append.mp hr with hr1 | hr2
      · rw [stocksStage_metric hr1] at hm
        exact absurd hm (by simp)
      · rw [hch4 r hr2] at hm
        exact absurd hm (by simp)
    have hmemCH4 : ∀ r, r ∈ prepared gwpName split f long → r.Metric = MetricT.CH4_CO2e →
        r ∈ gasStage MetricT.CH4_CO2e .CH4 (gwp_pair gwpName).1 long := by
      intro r hr hm
      rcases List.mem_append.mp hr with hr | hr5
      rotate_left
      · rw [lsuStage_metric hr5] at hm
        exact absurd hm (by simp)
      rcases List.mem_append.mp hr with hr | hr4
      rotate_left
      · rw [totalStage_metric hr4] at hm
        exact absurd hm (by simp)
      rcases List.mem_append.mp hr with hr | hr3
      rotate_left
      · rw [hn2o r hr3] at hm
        exact absurd hm (by simp)
      rcases List.mem_append.mp hr with hr1 | hr2
      · rw [stocksStage_metric hr1] at hm
        exact absurd hm (by simp)
      · exact hr2
    have hmemN2O : ∀ r, r ∈ prepared gwpName split f long → r.Metric = MetricT.N2O_CO2e →
        r ∈ gasStage MetricT.N2O_CO2e .N2O (gwp_pair gwpName).2 long := by
      intro r hr hm
      rcases List.mem_append.mp hr with hr | hr5
      rotate_left
      · rw [lsuStage_metric hr5] at hm
        exact absurd hm (by simp)
      rcases List.mem_append.mp hr with hr | hr4
      rotate_left
      · rw [totalStage_metric hr4] at hm
        exact absurd hm (by simp)
      rcases List.mem_append.mp hr with hr | hr3
      rotate_left
      · exact hr3
      rcases List.mem_append.mp hr with hr1 | hr2
      · rw [stocksStage_metric hr1] at hm
        exact absurd hm (by simp)
      · rw [hch4 r hr2] at hm
        exact absurd hm (by simp)
    have hsubTot : ∀ r, r ∈ totalStage (gwp_pair gwpName).1 (gwp_pair gwpName).2 long →
        r ∈ prepared gwpName split f long := by
      intro r hr
      exact List.mem_append_left _ (List.mem_append_right _ hr)
    have hsubCH4 : ∀ r, r ∈ gasStage MetricT.CH4_CO2e .CH4 (gwp_pair gwpName).1 long →
        r ∈ prepared gwpName split f long := by
      intro r hr
      exact List.mem_append_left _ (List.mem_append_left _ (List.mem_append_left _
        (List.mem_append_right _ hr)))
    have hsubN2O : ∀ r, r ∈ gasStage MetricT.N2O_CO2e .N2O (gwp_pair gwpName).2 long →
        r ∈ prepared gwpName split f long := by
      intro r hr
      exact List.mem_append_left _ (List.mem_append_left _ (List.mem_append_right _ hr))
    refine ⟨?_, ?_, ?_⟩
    · constructor
      · rintro ⟨r, hr, hm, ht⟩
        have hrT := hmemTot r hr hm
        have hEx := (totalStage_triple_iff hcons _ _ t).mp ⟨r, hrT, ht⟩
        rcases hEx with h | h
        · exact Or.inl (by
            rcases (gasStage_triple_iff hcons MetricT.CH4_CO2e .CH4 _ t).mpr h with ⟨r2, hr2, ht2⟩
            exact ⟨r2, hsubCH4 r2 hr2, hch4 r2 hr2, ht2⟩)
        · exact Or.inr (by
            rcases (gasStage_triple_iff hcons MetricT.N2O_CO2e .N2O _ t).mpr h with ⟨r2, hr2, ht2⟩
            exact ⟨r2, hsubN2O r2 hr2, hn2o r2 hr2, ht2⟩)
      · intro hEx
        have hk : fullKey t ∈ groupKeys (scaledGas .CH4 (gwp_pair gwpName).1 long)
            ∨ fullKey t ∈ groupKeys (scaledGas .N2O (gwp_pair gwpName).2 long) := by
          rcases hEx with ⟨r, hr, hm, ht⟩ | ⟨r, hr, hm, ht⟩
          · exact Or.inl ((gasStage_triple_iff hcons MetricT.CH4_CO2e .CH4 _ t).mp
              ⟨r, hmemCH4 r hr hm, ht⟩)
          · exact Or.inr ((gasStage_triple_iff hcons MetricT.N2O_CO2e .N2O _ t).mp
              ⟨r, hmemN2O r hr hm, ht⟩)
        rcases (totalStage_triple_iff hcons (gwp_pair gwpName).1 (gwp_pair gwpName).2 t).mpr hk
          with ⟨r, hr, ht⟩
        exact ⟨r, hsubTot r hr, totalStage_metric hr, ht⟩
    · intro r hr hm ht
      have hrT := hmemTot r hr hm
      rcases List.mem_map.mp hrT with ⟨k, hk, rfl⟩
      have hkey : k = fullKey t := by
        rcases List.mem_append.mp (List.mem_dedup.mp hk) with h | h
        · exact groupKeys_key_eq (scaledGas_flagsOk hcons) h ht
        · exact groupKeys_key_eq (scaledGas_flagsOk hcons) h ht
      subst hkey
      have hzCH4s : metricSumAt MetricT.CH4_CO2e (stocksStage long) t = 0 :=
        metricSumAt_zero_of _ _ _ (fun r hr => by rw [stocksStage_metric hr]; decide)
      have hzCH4n : metricSumAt MetricT.CH4_CO2e
          (gasStage MetricT.N2O_CO2e .N2O (gwp_pair gwpName).2 long) t = 0 :=
        metricSumAt_zero_of _ _ _ (fun r hr => by rw [hn2o r hr]; decide)
      have hzCH4t : metricSumAt MetricT.CH4_CO2e
          (totalStage (gwp_pair gwpName).1 (gwp_pair gwpName).2 long) t = 0 :=
        metricSumAt_zero_of _ _ _ (fun r hr => by rw [totalStage_metric hr]; decide)
      have hzCH4l : metricSumAt MetricT.CH4_CO2e (lsuStage split f long) t = 0 :=
        metricSumAt_zero_of _ _ _ (fun r hr => by rw [lsuStage_metric hr]; decide)
      have hzN2Os : metricSumAt MetricT.N2O_CO2e (stocksStage long) t = 0 :=
        metricSumAt_zero_of _ _ _ (fun r hr => by rw [stocksStage_metric hr]; decide)
      have hzN2Oc : metricSumAt MetricT.N2O_CO2e
          (gasStage MetricT.CH4_CO2e .CH4 (gwp_pair gwpName).1 long) t = 0 :=
        metricSumAt_zero_of _ _ _ (fun r hr => by rw [hch4 r hr]; decide)
      have hzN2Ot : metricSumAt MetricT.N2O_CO2e
          (totalStage (gwp_pair gwpName).1 (gwp_pair gwpName).2 long) t = 0 :=
        metricSumAt_zero_of _ _ _ (fun r hr => by rw [totalStage_metric hr]; decide)
      have hzN2Ol : metricSumAt MetricT.N2O_CO2e (lsuStage split f long) t = 0 :=
        metricSumAt_zero_of _ _ _ (fun r hr => by rw [lsuStage_metric hr]; decide)
      have hsumCH4 : metricSumAt MetricT.CH4_CO2e (prepared gwpName split f long) t
          = sumAt (scaledGas .CH4 (gwp_pair gwpName).1 long) (fullKey t) := by
        show metricSumAt MetricT.CH4_CO2e (stocksStage long
          ++ gasStage MetricT.CH4_CO2e .CH4 (gwp_pair gwpName).1 long
          ++ gasStage MetricT.N2O_CO2e .N2O (gwp_pair gwpName).2 long
          ++ totalStage (gwp_pair gwpName).1 (gwp_pair gwpName).2 long
          ++ lsuStage split f long) t = _
        rw [metricSumAt_append, metricSumAt_append, metricSumAt_append, metricSumAt_append,
          hzCH4s, hzCH4n, hzCH4t, hzCH4l,
          metricSumAt_gasStage hcons MetricT.CH4_CO2e .CH4 (gwp_pair gwpName).1 t]
        ring
      have hsumN2O : metricSumAt MetricT.N2O_CO2e (prepared gwpName split f long) t
          = sumAt (scaledGas .N2O (gwp_pair gwpName).2 long) (fullKey t) := by
        show metricSumAt MetricT.N2O_CO2e (stocksStage long
          ++ gasStage MetricT.CH4_CO2e .CH4 (gwp_pair gwpName).1 long
          ++ gasStage MetricT.N2O_CO2e .N2O (gwp_pair gwpName).2 long
          ++ totalStage (gwp_pair gwpName).1 (gwp_pair gwpName).2 long
          ++ lsuStage split f long) t = _
        rw [metricSumAt_append, metricSumAt_append, metricSumAt_append, metricSumAt_append,
          hzN2Os, hzN2Oc, hzN2Ot, hzN2Ol,
          metricSumAt_gasStage hcons MetricT.N2O_CO2e .N2O (gwp_pair gwpName).2 t]
        ring
      show sumAt (scaledGas .CH4 (gwp_pair gwpName).1 long) (fullKey t)
          + sumAt (scaledGas .N2O (gwp_pair gwpName).2 long) (fullKey t) = _
      rw [hsumCH4, hsumN2O]
    · have hfs : (stocksStage long).filter
          (fun r => r.Metric == MetricT.Total_CO2e && outTripleOf r == t) = [] :=
        filter_stage_nil t (fun r hr => by rw [stocksStage_metric hr]; decide)
      have hfc : (gasStage MetricT.CH4_CO2e .CH4 (gwp_pair gwpName).1 long).filter
          (fun r => r.Metric == MetricT.Total_CO2e && outTripleOf r == t) = [] :=
        filter_stage_nil t (fun r hr => by rw [hch4 r hr]; decide)
      have hfn : (gasStage MetricT.N2O_CO2e .N2O (gwp_pair gwpName).2 long).filter
          (fun r => r.Metric == MetricT.Total_CO2e && outTripleOf r == t) = [] :=
        filter_stage_nil t (fun r hr => by rw [hn2o r hr]; decide)
      have hfl : (lsuStage split f long).filter
          (fun r => r.Metric == MetricT.Total_CO2e && outTripleOf r == t) = [] :=
        filter_stage_nil t (fun r hr => by rw [lsuStage_metric hr]; decide)
      have hpred : ((fun r : OutRow => r.Metric == MetricT.Total_CO2e && outTripleOf r == t) ∘
          (fun k => rowOfKey MetricT.Total_CO2e k
            (sumAt (scaledGas .CH4 (gwp_pair gwpName).1 long) k
              + sumAt (scaledGas .N2O (gwp_pair gwpName).2 long) k)))
          = fun k => tripleOfKey k == t := by
        funext k
        simp [Function.comp, rowOfKey, outTripleOf, tripleOfKey]
      have hall : ∀ k ∈ (groupKeys (scaledGas .CH4 (gwp_pair gwpName).1 long)
          ++ groupKeys (scaledGas .N2O (gwp_pair gwpName).2 long)).dedup,
          (fun k => tripleOfKey k == t) k = true → k = fullKey t := by
        intro k hk hkt
        rcases List.mem_append.mp (List.mem_dedup.mp hk) with h | h
        · exact groupKeys_key_eq (scaledGas_flagsOk hcons) h (beq_iff_eq.mp hkt)
        · exact groupKeys_key_eq (scaledGas_flagsOk hcons) h (beq_iff_eq.mp hkt)
      have hft : ((totalStage (gwp_pair gwpName).1 (gwp_pair gwpName).2 long).filter
          (fun r => r.Metric == MetricT.Total_CO2e && outTripleOf r == t)).length ≤ 1 := by
        unfold totalStage
        rw [List.filter_map, hpred]
        rcases filter_nodup_sub_singleton (fun k => tripleOfKey k == t) (fullKey t)
            _ (List.nodup_dedup _) hall with hnil | hone
        · rw [hnil]
          simp
        · rw [hone]
          simp
      show ((stocksStage long
          ++ gasStage MetricT.CH4_CO2e .CH4 (gwp_pair gwpName).1 long
          ++ gasStage MetricT.N2O_CO2e .N2O (gwp_pair gwpName).2 long
          ++ totalStage (gwp_pair gwpName).1 (gwp_pair gwpName).2 long
          ++ lsuStage split f long).filter
            (fun r => r.Metric == MetricT.Total_CO2e && outTripleOf r == t)).length ≤ 1
      rw [List.filter_append, List.filter_append, List.filter_append, List.filter_append,
        hfs, hfc, hfn, hfl]
      simpa using hft

/-- Witness for C2, instantiating the invariant at a concrete consistent
two-row CH4 table and its key. -/
theorem C2_witness :
    (∃ r ∈ prepared "AR5" true (dairyFrac 35) ch4RowsW,
        r.Metric = MetricT.Total_CO2e ∧ outTripleOf r = ("France", "Cattle", 2020))
      ↔ ((∃ r ∈ prepared "AR5" true (dairyFrac 35) ch4RowsW,
            r.Metric = MetricT.CH4_CO2e ∧ outTripleOf r = ("France", "Cattle", 2020))
          ∨ (∃ r ∈ prepared "AR5" true (dairyFrac 35) ch4RowsW,
              r.Metric = MetricT.N2O_CO2e ∧ outTripleOf r = ("France", "Cattle", 2020))) :=
  (C2_total_invariant.2 "AR5" true (dairyFrac 35) ch4RowsW
    (by
      intro r hr
      rcases List.mem_cons.mp hr with rfl | hr2
      · exact ⟨by decide, by decide, by decide⟩
      rcases List.mem_cons.mp hr2 with rfl | hr3
      · exact ⟨by decide, by decide, by decide⟩
      exact absurd hr3 (List.not_mem_nil _))
    ("France", "Cattle", 2020)).1

/-! ### Claim C7: region aggregation -/

theorem sum_filter_disjoint_or (rows : List OutRow) (p q : OutRow → Bool)
    (hdisj : ∀ r ∈ rows, ¬(p r = true ∧ q r = true)) :
    ((rows.filter (fun r => p r || q r)).map (fun r => r.value)).sum
      = ((rows.filter p).map (fun r => r.value)).sum
        + ((rows.filter q).map (fun r => r.value)).sum := by
  induction rows with
  | nil => simp
  | cons a t ih =>
    have ih2 := ih (fun r hr => hdisj r (List.mem_cons_of_mem _ hr))
    have hda := hdisj a (List.mem_cons_self a t)
    cases hp : p a with
    | true =>
      have hq : q a = false := by
        cases hq : q a with
        | false => rfl
        | true => exact absurd ⟨hp, hq⟩ hda
      simp only [List.filter_cons, hp, hq, Bool.true_or, if_true, Bool.false_eq_true, if_false,
        List.map_cons, List.sum_cons, ih2]
      ring
    | false =>
      cases hq : q a with
      | true =>
        simp only [List.filter_cons, hp, hq, Bool.false_or, if_true, Bool.false_eq_true, if_false,
          List.map_cons, List.sum_cons, ih2]
        ring
      | false =>
        simp only [List.filter_cons, hp, hq, Bool.false_or, Bool.false_eq_true, if_false, ih2]

/-- Summing the rows whose area lies in a duplicate-free member list, per
region key, is the sum of the per-country sums. -/
theorem sum_members (out : List OutRow) (k : RKey) :
    ∀ members : List String, members.Nodup →
      ((out.filter (fun r => members.contains r.Area && rkeyOf r == k)).map
        (fun r => r.value)).sum
        = (members.map (fun a => areaKeySum out a k)).sum := by
  intro members
  induction members with
  | nil =>
    intro _
    simp [areaKeySum]
  | cons a0 ms ih =>
    intro hnd
    rcases List.nodup_cons.mp hnd with ⟨ha, hnd2⟩
    have hsplit : out.filter (fun r => (a0 :: ms).contains r.Area && rkeyOf r == k)
        = out.filter (fun r => (r.Area == a0 && rkeyOf r == k)
            || (ms.contains r.Area && rkeyOf r == k)) := by
      apply List.filter_congr
      intro r _
      show ((r.Area == a0 || ms.contains r.Area) && (rkeyOf r == k)) = _
      rw [Bool.and_or_distrib_right]
    rw [hsplit]
    rw [sum_filter_disjoint_or out _ _ (fun r _ hpq => by
      rcases hpq with ⟨hp, hq⟩
      have hp2 : (r.Area == a0) = true ∧ (rkeyOf r == k) = true := by simpa using hp
      have hq2 : ms.contains r.Area = true ∧ (rkeyOf r == k) = true := by simpa using hq
      exact ha ((beq_iff_eq.mp hp2.1) ▸ List.elem_iff.mp hq2.1))]
    rw [List.map_cons, List.sum_cons, ih hnd2]
    rfl

/-- Every region-total row carries the synthetic label and sums the member
countries' values at its key (a country absent from the data contributes 0,
and only the available-area intersection contributes). -/
theorem group_totals_spec (out : List OutRow) (members : List String) (label : String) :
    ∀ g ∈ group_totals out members label,
      g.Area = label
        ∧ g.value = ((interAreas out members).map (fun a => areaKeySum out a (rkeyOf g))).sum := by
  intro g hg
  rcases List.mem_map.mp hg with ⟨k, hk, rfl⟩
  refine ⟨rfl, ?_⟩
  show rsumAt (out.filter (fun r => members.contains r.Area)) k
      = ((interAreas out members).map (fun a => areaKeySum out a k)).sum
  unfold rsumAt
  rw [List.filter_filter]
  have hflip : out.filter (fun r => (rkeyOf r == k) && members.contains r.Area)
      = out.filter (fun r => (interAreas out members).contains r.Area && rkeyOf r == k) := by
    apply List.filter_congr
    intro r hr
    have hmem : r.Area ∈ areasOf out :=
      List.mem_dedup.mpr (List.mem_map_of_mem _ hr)
    have hiff : members.contains r.Area = (interAreas out members).contains r.Area := by
      cases hc : members.contains r.Area with
      | true =>
        have : r.Area ∈ interAreas out members :=
          List.mem_filter.mpr ⟨hmem, hc⟩
        exact (List.elem_iff.mpr this).symm
      | false =>
        cases hc2 : (interAreas out members).contains r.Area with
        | false => rfl
        | true =>
          have hc3 := (List.mem_filter.mp (List.elem_iff.mp hc2)).2
          rw [hc3] at hc
          exact absurd hc (by simp)
    rw [hiff, Bool.and_comm]
  rw [hflip]
  exact sum_members out k (interAreas out members) (List.Nodup.filter _ (List.nodup_dedup _))

theorem group_totals_nil (out : List OutRow) (members : List String) (label : String)
    (h : ∀ r ∈ out, members.contains r.Area = false) :
    group_totals out members label = [] := by
  have hsub : out.filter (fun r => members.contains r.Area) = [] :=
    List.filter_eq_nil_iff.mpr (fun r hr => by
      rw [h r hr]
      simp)
  unfold group_totals
  rw [hsub]
  rfl

/-- Claim C7: for every region group, each appended row is labelled with the
group's fixed synthetic area name and its Value is the sum over the
available-country intersection of the per-country values at its
(Item, Year, Metric, kind, flags) key, a missing country key contributing 0;
when the intersection is exactly {A, B} the value is A's plus B's; a group
whose intersection with the available areas is empty contributes no rows; and
the rows of the three group-totals calls (with their fixed labels) are all
appended to the final output. -/
theorem C7_region_totals :
    (∀ (out : List OutRow) (members : List String) (label : String),
        ∀ g ∈ group_totals out members label,
          g.Area = label
            ∧ g.value
              = ((interAreas out members).map (fun a => areaKeySum out a (rkeyOf g))).sum)
    ∧ (∀ (out : List OutRow) (members : List String) (label : String),
        (∀ r ∈ out, members.contains r.Area = false) →
        group_totals out members label = [])
    ∧ (∀ (out : List OutRow) (members : List String) (label : String) (A B : String),
        interAreas out members = [A, B] →
        ∀ g ∈ group_totals out members label,
          g.value = areaKeySum out A (rkeyOf g) + areaKeySum out B (rkeyOf g))
    ∧ (∀ (out : List OutRow) (g : OutRow),
        (g ∈ group_totals out (interAreas out EU_LIST) "EU (group total)" →
          g ∈ withRegions out)
        ∧ (g ∈ group_totals out (interAreas out EEA_PLUS_UK) "EU/EEA+UK (group total)" →
          g ∈ withRegions out)
        ∧ (g ∈ group_totals out (interAreas out EUROPE_WIDE) "Europe (group total)" →
          g ∈ withRegions out)) := by
  refine ⟨group_totals_spec, group_totals_nil, ?_, ?_⟩
  · intro out members label A B hint g hg
    have h := (group_totals_spec out members label g hg).2
    rw [hint] at h
    simpa using h
  · intro out g
    have hempty : ∀ label : String, g ∈ group_totals out ([] : List String) label → False := by
      intro label hg
      rw [group_totals_nil out [] label (fun r _ => rfl)] at hg
      exact absurd hg (List.not_mem_nil g)
    refine ⟨?_, ?_, ?_⟩
    · intro hg
      by_cases hne : interAreas out EU_LIST ≠ []
      · unfold withRegions
        rw [if_pos hne]
        exact List.mem_append_left _ (List.mem_append_left _ (List.mem_append_right _ hg))
      · rw [not_not.mp hne] at hg
        exact absurd (hempty _ hg) not_false
    · intro hg
      by_cases hne : interAreas out EEA_PLUS_UK ≠ []
      · unfold withRegions
        rw [if_pos hne]
        exact List.mem_append_left _ (List.mem_append_right _ hg)
      · rw [not_not.mp hne] at hg
        exact absurd (hempty _ hg) not_false
    · intro hg
      by_cases hne : interAreas out EUROPE_WIDE ≠ []
      · unfold withRegions
        rw [if_pos hne]
        exact List.mem_append_right _ hg
      · rw [not_not.mp hne] at hg
        exact absurd (hempty _ hg) not_false

/-- Witness for C7, on a concrete France+Germany table: the EU total row is
labelled and sums the two countries; an alien member set contributes nothing;
and the row reaches the final output. -/
theorem C7_witness :
    (regionRowW.Area = "EU (group total)"
      ∧ regionRowW.value = ((interAreas outRowsW EU_LIST).map
          (fun a => areaKeySum outRowsW a (rkeyOf regionRowW))).sum)
    ∧ group_totals outRowsW ["Elbonia"] "Elbonia (group total)" = []
    ∧ regionRowW.value = areaKeySum outRowsW "France" (rkeyOf regionRowW)
        + areaKeySum outRowsW "Germany" (rkeyOf regionRowW)
    ∧ regionRowW ∈ withRegions outRowsW := by
  have hk : kRW ∈ (List.map rkeyOf (outRowsW.filter
      (fun r => (interAreas outRowsW EU_LIST).contains r.Area))).dedup := by decide
  have hmem : regionRowW ∈ group_totals outRowsW (interAreas outRowsW EU_LIST)
      "EU (group total)" :=
    List.mem_map_of_mem (fun k : RKey =>
      ({ Area := "EU (group total)", Item := k.1, year := k.2.1, Metric := k.2.2.1,
         value := rsumAt (outRowsW.filter
           (fun r => (interAreas outRowsW EU_LIST).contains r.Area)) k,
         kind := k.2.2.2.1, isAllAnimals := k.2.2.2.2.1,
         isAtomic := k.2.2.2.2.2 } : OutRow)) hk
  exact ⟨C7_region_totals.1 _ _ _ _ hmem,
    C7_region_totals.2.1 _ _ _ (by decide),
    C7_region_totals.2.2.1 _ _ _ "France" "Germany" (by decide) _ hmem,
    (C7_region_totals.2.2.2 outRowsW regionRowW).1 hmem⟩

/-! ### Claim C9 -/

/-- Claim C9 as frozen is false on the code: "A2020" is a letter followed by
four digits yet is not detected (the source accepts only names starting with
the letter `Y`), "Y123" is detected though its digit run is not four long, and
a pipeline run over a table with a detected year column can still terminate
with a fatal error ("Nothing to write."), refuting the stated "if and only
if". -/
theorem C9_counterexample :
    specYearCol "A2020" = true ∧ detect_year_cols ["A2020"] = []
    ∧ specYearCol "Y123" = false ∧ detect_year_cols ["Y123"] = ["Y123"]
    ∧ detect_year_cols tblNW.cols = ["Y2020"]
    ∧ run "AR6_NOCCF" true true 35 tblNW = .error "Nothing to write." := by
  refine ⟨by decide, by decide, by decide, by decide, by decide, rfl⟩

theorem meltRow_year_count (cols : List String) :
    ∀ vals : List ℚ, vals.length = cols.length →
      ((cols.zip vals).filter (fun p => isYearColName p.1)).length
        = (detect_year_cols cols).length := by
  induction cols with
  | nil =>
    intro vals _
    simp [detect_year_cols]
  | cons c cs ih =>
    intro vals hlen
    cases vals with
    | nil => exact absurd hlen.symm (by simp)
    | cons v vs =>
      have hlen2 : vs.length = cs.length := by simpa using hlen
      show (((c, v) :: cs.zip vs).filter
        (fun p : String × ℚ => isYearColName p.1)).length = _
      rw [List.filter_cons]
      unfold detect_year_cols
      rw [List.filter_cons]
      cases hy : isYearColName c with
      | true =>
        simp only [hy, if_true, List.length_cons]
        rw [ih vs hlen2]
        rfl
      | false =>
        simp only [hy, Bool.false_eq_true, if_false]
        exact ih vs hlen2

/-- Claim C9 (amended): a column is detected as a year column exactly when its
name starts with the character `Y` followed by a non-empty run of digits; each
detected year column is unpivoted into one (Year, Value) row per original row
(rows × detected columns in total); and if zero year columns are detected the
pipeline terminates with the fatal year-column error before any row
processing (other later conditions, such as an empty result, are also fatal).
-/
theorem C9_year_columns :
    (∀ (cols : List String) (c : String),
        c ∈ detect_year_cols cols ↔ c ∈ cols ∧ isYearColName c = true)
    ∧ (∀ (h : Char) (t : List Char),
        isYearColName ⟨h :: t⟩ = (h == 'Y' && !t.isEmpty && t.all Char.isDigit))
    ∧ isYearColName ⟨[]⟩ = false
    ∧ (∀ (cols : List String) (rows : List NormRow),
        (∀ r ∈ rows, r.vals.length = cols.length) →
        (meltStep cols rows).length = rows.length * (detect_year_cols cols).length)
    ∧ (∀ (gwpName : String) (split onlyLT : Bool) (ds : ℚ) (tbl : RawTable),
        detect_year_cols tbl.cols = [] →
        run gwpName split onlyLT ds tbl
          = .error "ERROR: No year columns found (expected Y2010, Y2018, etc.)") := by
  refine ⟨?_, ?_, rfl, ?_, ?_⟩
  · intro cols c
    exact List.mem_filter
  · intro h t
    rfl
  · intro cols rows
    induction rows with
    | nil =>
      intro _
      simp [meltStep]
    | cons r rs ih =>
      intro hlen
      have hr := hlen r (List.mem_cons_self r rs)
      have hrs := ih (fun x hx => hlen x (List.mem_cons_of_mem _ hx))
      have hstep : meltStep cols (r :: rs) = meltRow cols r ++ meltStep cols rs := rfl
      have hrowlen : (meltRow cols r).length = (detect_year_cols cols).length := by
        unfold meltRow
        rw [List.length_map]
        exact meltRow_year_count cols r.vals hr
      rw [hstep, List.length_append, hrs, hrowlen]
      simp only [List.length_cons]
      ring
  · intro gwpName split onlyLT ds tbl h
    unfold run
    rw [h]
    rfl

/-- Witness for the amended C9: the melt count and the fatal error on a
concrete table. -/
theorem C9_witness :
    (meltStep ["Y2020", "Unit"] [nrowW]).length
        = 1 * (detect_year_cols ["Y2020", "Unit"]).length
    ∧ run "AR5" true true 35 tblNoYear
        = .error "ERROR: No year columns found (expected Y2010, Y2018, etc.)" := by
  constructor
  · exact C9_year_columns.2.2.2.1 ["Y2020", "Unit"] [nrowW]
      (by
        intro r hr
        rcases List.mem_cons.mp hr with rfl | hr2
        · decide
        · exact absurd hr2 (List.not_mem_nil _))
  · exact C9_year_columns.2.2.2.2 "AR5" true true 35 tblNoYear (by decide)

/-! ### Claim C10 -/

/-- With no case-insensitive "cattle" occurrence the replacement is the
identity. -/
theorem replaceCattle_id (repl : List Char) :
    ∀ l : List Char, containsSub "cattle".data (lc l) = false → replaceCattle repl l = l := by
  intro l
  induction l with
  | nil =>
    intro _
    rfl
  | cons c rest ih =>
    intro h
    have h2 : (isPre "cattle".data (lc (c :: rest))
        || containsSub "cattle".data (lc rest)) = false := h
    have hp : isPre "cattle".data (lc (c :: rest)) = false := by
      cases hp : isPre "cattle".data (lc (c :: rest)) with
      | false => rfl
      | true =>
        rw [hp] at h2
        simp at h2
    have hc : containsSub "cattle".data (lc rest) = false := by
      rw [hp] at h2
      simpa using h2
    rw [replaceCattle_nomatch repl c rest hp, ih hc]

/-- The cattle-or-bovine test survives either replacement: a replaced label
still looks like cattle. -/
theorem looks_replaced (repl : List Char)
    (hrepl : containsSub "cattle".data (lc repl) = true) (item : String)
    (h : looks_like_cattle item = true) :
    looks_like_cattle (⟨replaceCattle repl item.data⟩ : String) = true := by
  cases hc : containsCI "cattle" item with
  | true =>
    have hstep := replaceCattle_contains_repl repl item.data.length item.data (le_refl _) hc
    have hcat : containsSub "cattle".data (lc (replaceCattle repl item.data)) = true :=
      containsSub_trans hrepl hstep
    have : containsCI "cattle" (⟨replaceCattle repl item.data⟩ : String) = true := hcat
    simp [looks_like_cattle, this]
  | false =>
    have hid : replaceCattle repl item.data = item.data := replaceCattle_id repl item.data hc
    rw [hid]
    exact h

theorem filter_metric_key_nil {out : List OutRow} {m : MetricT} (k : GKey)
    (h : ∀ r ∈ out, r.Metric ≠ m) :
    out.filter (fun r => r.Metric == m && outKeyOf r == k) = [] :=
  List.filter_eq_nil_iff.mpr (fun r hr => by
    simp only [Bool.and_eq_true, beq_iff_eq]
    rintro ⟨h1, -⟩
    exact h r hr h1)

/-- Claim C10 (amended): Stocks rows are copied without grouping — the number
of Stocks output rows on a key equals the number of Stocks long rows on it;
duplicate CH4 or N2O rows on a key are collapsed into at most one summed row;
LSU produces exactly one row per post-split stocks row, so a key keeps its
duplicate LSU rows whenever the split is disabled, or the split is enabled
but the key's item is not cattle-or-bovine; (for cattle/bovine items with the
split enabled the LSU rows appear under the derived labels instead, one per
post-split row). -/
theorem C10_duplicate_keys :
    (∀ (gwpName : String) (split : Bool) (f : ℚ) (long : List LongRow) (k : GKey),
        ((prepared gwpName split f long).filter
            (fun r => r.Metric == MetricT.Stocks && outKeyOf r == k)).length
          = ((stocksRows long).filter (fun r => keyOf r == k)).length)
    ∧ (∀ (gwpName : String) (split : Bool) (f : ℚ) (long : List LongRow) (k : GKey),
        ((prepared gwpName split f long).filter
            (fun r => r.Metric == MetricT.CH4_CO2e && outKeyOf r == k)).length ≤ 1)
    ∧ (∀ (gwpName : String) (split : Bool) (f : ℚ) (long : List LongRow) (k : GKey),
        ((prepared gwpName split f long).filter
            (fun r => r.Metric == MetricT.N2O_CO2e && outKeyOf r == k)).length ≤ 1)
    ∧ (∀ (split : Bool) (f : ℚ) (long : List LongRow),
        (lsuStage split f long).length = (splitStep split f (stocksRows long)).length)
    ∧ (∀ (gwpName : String) (f : ℚ) (long : List LongRow) (k : GKey),
        ((prepared gwpName false f long).filter
            (fun r => r.Metric == MetricT.LSU && outKeyOf r == k)).length
          = ((stocksRows long).filter (fun r => keyOf r == k)).length)
    ∧ (∀ (gwpName : String) (f : ℚ) (long : List LongRow) (k : GKey),
        looks_like_cattle k.2.1 = false →
        ((prepared gwpName true f long).filter
            (fun r => r.Metric == MetricT.LSU && outKeyOf r == k)).length
          = ((stocksRows long).filter (fun r => keyOf r == k)).length) := by
  have hch4m : ∀ (gwpName : String) (long : List LongRow) r,
      r ∈ gasStage MetricT.CH4_CO2e .CH4 (gwp_pair gwpName).1 long →
      r.Metric = MetricT.CH4_CO2e := fun _ _ r hr => (gasStage_value _ _ _ _ _ hr).1
  have hn2om : ∀ (gwpName : String) (long : List LongRow) r,
      r ∈ gasStage MetricT.N2O_CO2e .N2O (gwp_pair gwpName).2 long →
      r.Metric = MetricT.N2O_CO2e := fun _ _ r hr => (gasStage_value _ _ _ _ _ hr).1
  have hstocksPart : ∀ (long : List LongRow) (k : GKey),
      ((stocksStage long).filter
          (fun r => r.Metric == MetricT.Stocks && outKeyOf r == k)).length
        = ((stocksRows long).filter (fun r => keyOf r == k)).length := by
    intro long k
    unfold stocksStage
    rw [List.filter_map, List.length_map]
    exact congrArg List.length (List.filter_congr (fun r _ => by
      simp [Function.comp, outKeyOf, keyOf]))
  have hgasPart : ∀ (m : MetricT) (g : ElementNorm) (fac : ℚ) (long : List LongRow) (k : GKey),
      ((gasStage m g fac long).filter
          (fun r => r.Metric == m && outKeyOf r == k)).length ≤ 1 := by
    intro m g fac long k
    unfold gasStage
    rw [List.filter_map, List.length_map]
    have hpred : ((fun r : OutRow => r.Metric == m && outKeyOf r == k) ∘
        (fun kk => rowOfKey m kk (sumAt (scaledGas g fac long) kk))) = fun kk => kk == k := by
      funext kk
      show ((m == m) && (kk == k)) = (kk == k)
      simp
    rw [hpred]
    rcases filter_nodup_sub_singleton (fun kk => kk == k) k
        (groupKeys (scaledGas g fac long)) (List.nodup_dedup _)
        (fun x _ hx => beq_iff_eq.mp hx) with hnil | hone
    · rw [hnil]
      simp
    · rw [hone]
      simp
  have hlsuFalse : ∀ (f : ℚ) (long : List LongRow) (k : GKey),
      ((lsuStage false f long).filter
          (fun r => r.Metric == MetricT.LSU && outKeyOf r == k)).length
        = ((stocksRows long).filter (fun r => keyOf r == k)).length := by
    intro f long k
    unfold lsuStage
    rw [List.filter_map, List.length_map]
    have hid : splitStep false f (stocksRows long) = stocksRows long := rfl
    rw [hid]
    exact congrArg List.length (List.filter_congr (fun r _ => by
      simp [Function.comp, outKeyOf, keyOf]))
  have hlsuTrue : ∀ (f : ℚ) (long : List LongRow) (k : GKey),
      looks_like_cattle k.2.1 = false →
      ((lsuStage true f long).filter
          (fun r => r.Metric == MetricT.LSU && outKeyOf r == k)).length
        = ((stocksRows long).filter (fun r => keyOf r == k)).length := by
    intro f long k hknc
    unfold lsuStage
    rw [List.filter_map, List.length_map]
    have hpred : ((fun r : OutRow => r.Metric == MetricT.LSU && outKeyOf r == k) ∘
        (fun r : LongRow =>
          ({ Area := r.Area, Item := r.Item, year := r.year, Metric := .LSU,
             value := r.value * default_lsu_weight r.Item, kind := r.kind,
             isAllAnimals := r.isAllAnimals, isAtomic := r.isAtomic } : OutRow)))
        = fun r : LongRow => keyOf r == k := by
      funext r
      show ((MetricT.LSU == MetricT.LSU) && (keyOf r == k)) = (keyOf r == k)
      simp
    rw [hpred]
    have hsplit : splitStep true f (stocksRows long)
        = (stocksRows long).filter (fun r => !looks_like_cattle r.Item)
          ++ ((stocksRows long).filter (fun r => looks_like_cattle r.Item)).map (dairyRow f)
          ++ ((stocksRows long).filter (fun r => looks_like_cattle r.Item)).map (otherRow f)
          := rfl
    rw [hsplit, List.filter_append, List.filter_append]
    have hItem : ∀ r : LongRow, (keyOf r == k) = true → r.Item = k.2.1 := by
      intro r hkr
      have := beq_iff_eq.mp hkr
      exact congrArg (fun x : GKey => x.2.1) this
    have hdairyNil : (((stocksRows long).filter
        (fun r => looks_like_cattle r.Item)).map (dairyRow f)).filter
          (fun r => keyOf r == k) = [] := by
      rw [List.filter_map]
      rw [List.filter_eq_nil_iff.mpr ?_]
      · rfl
      intro rc hrc hkc
      have hlc : looks_like_cattle rc.Item = true := (List.mem_filter.mp hrc).2
      have hlooks : looks_like_cattle (dairyRow f rc).Item = true :=
        looks_replaced "Cattle (dairy)".data (by decide) rc.Item hlc
      have hit : (dairyRow f rc).Item = k.2.1 := hItem (dairyRow f rc) hkc
      rw [hit] at hlooks
      rw [hlooks] at hknc
      exact absurd hknc (by simp)
    have hotherNil : (((stocksRows long).filter
        (fun r => looks_like_cattle r.Item)).map (otherRow f)).filter
          (fun r => keyOf r == k) = [] := by
      rw [List.filter_map]
      rw [List.filter_eq_nil_iff.mpr ?_]
      · rfl
      intro rc hrc hkc
      have hlc : looks_like_cattle rc.Item = true := (List.mem_filter.mp hrc).2
      have hlooks : looks_like_cattle (otherRow f rc).Item = true :=
        looks_replaced "Cattle (other)".data (by decide) rc.Item hlc
      have hit : (otherRow f rc).Item = k.2.1 := hItem (otherRow f rc) hkc
      rw [hit] at hlooks
      rw [hlooks] at hknc
      exact absurd hknc (by simp)
    rw [hdairyNil, hotherNil, List.append_nil, List.append_nil]
    rw [List.filter_filter]
    congr 1
    apply List.filter_congr
    intro r _
    cases hkr : keyOf r == k with
    | true =>
      have hri : r.Item = k.2.1 := hItem r hkr
      have : looks_like_cattle r.Item = false := by
        rw [hri]
        exact hknc
      simp [this]
    | false =>
      simp
  refine ⟨?_, ?_, ?_, ?_, ?_, ?_⟩
  · intro gwpName split f long k
    have h1 : (stocksStage long).filter
        (fun r => r.Metric == MetricT.Stocks && outKeyOf r == k)
        = ((stocksRows long).filter (fun r => keyOf r == k)).map (fun r =>
          ({ Area := r.Area, Item := r.Item, year := r.year, Metric := .Stocks,
             value := r.value, kind := r.kind, isAllAnimals := r.isAllAnimals,
             isAtomic := r.isAtomic } : OutRow)) := by
      unfold stocksStage
      rw [List.filter_map]
      exact congrArg (List.map _) (List.filter_congr (fun r _ => by
        simp [Function.comp, outKeyOf, keyOf]))
    have h2 : (gasStage MetricT.CH4_CO2e .CH4 (gwp_pair gwpName).1 long).filter
        (fun r => r.Metric == MetricT.Stocks && outKeyOf r == k) = [] :=
      filter_metric_key_nil k (fun r hr => by rw [hch4m gwpName long r hr]; decide)
    have h3 : (gasStage MetricT.N2O_CO2e .N2O (gwp_pair gwpName).2 long).filter
        (fun r => r.Metric == MetricT.Stocks && outKeyOf r == k) = [] :=
      filter_metric_key_nil k (fun r hr => by rw [hn2om gwpName long r hr]; decide)
    have h4 : (totalStage (gwp_pair gwpName).1 (gwp_pair gwpName).2 long).filter
        (fun r => r.Metric == MetricT.Stocks && outKeyOf r == k) = [] :=
      filter_metric_key_nil k (fun r hr => by rw [totalStage_metric hr]; decide)
    have h5 : (lsuStage split f long).filter
        (fun r => r.Metric == MetricT.Stocks && outKeyOf r == k) = [] :=
      filter_metric_key_nil k (fun r hr => by rw [lsuStage_metric hr]; decide)
    show ((stocksStage long
        ++ gasStage MetricT.CH4_CO2e .CH4 (gwp_pair gwpName).1 long
        ++ gasStage MetricT.N2O_CO2e .N2O (gwp_pair gwpName).2 long
        ++ totalStage (gwp_pair gwpName).1 (gwp_pair gwpName).2 long
        ++ lsuStage split f long).filter
          (fun r => r.Metric == MetricT.Stocks && outKeyOf r == k)).length = _
    rw [List.filter_append, List.filter_append, List.filter_append, List.filter_append,
      h1, h2, h3, h4, h5]
    simp [List.length_map]
  · intro gwpName split f long k
    have h1 : (stocksStage long).filter
        (fun r => r.Metric == MetricT.CH4_CO2e && outKeyOf r == k) = [] :=
      filter_metric_key_nil k (fun r hr => by rw [stocksStage_metric hr]; decide)
    have h3 : (gasStage MetricT.N2O_CO2e .N2O (gwp_pair gwpName).2 long).filter
        (fun r => r.Metric == MetricT.CH4_CO2e && outKeyOf r == k) = [] :=
      filter_metric_key_nil k (fun r hr => by rw [hn2om gwpName long r hr]; decide)
    have h4 : (totalStage (gwp_pair gwpName).1 (gwp_pair gwpName).2 long).filter
        (fun r => r.Metric == MetricT.CH4_CO2e && outKeyOf r == k) = [] :=
      filter_metric_key_nil k (fun r hr => by rw [totalStage_metric hr]; decide)
    have h5 : (lsuStage split f long).filter
        (fun r => r.Metric == MetricT.CH4_CO2e && outKeyOf r == k) = [] :=
      filter_metric_key_nil k (fun r hr => by rw [lsuStage_metric hr]; decide)
    show ((stocksStage long
        ++ gasStage MetricT.CH4_CO2e .CH4 (gwp_pair gwpName).1 long
        ++ gasStage MetricT.N2O_CO2e .N2O (gwp_pair gwpName).2 long
        ++ totalStage (gwp_pair gwpName).1 (gwp_pair gwpName).2 long
        ++ lsuStage split f long).filter
          (fun r => r.Metric == MetricT.CH4_CO2e && outKeyOf r == k)).length ≤ 1
    rw [List.filter_append, List.filter_append, List.filter_append, List.filter_append,
      h1, h3, h4, h5]
    simpa using hgasPart MetricT.CH4_CO2e .CH4 (gwp_pair gwpName).1 long k
  · intro gwpName split f long k
    have h1 : (stocksStage long).filter
        (fun r => r.Metric == MetricT.N2O_CO2e && outKeyOf r == k) = [] :=
      filter_metric_key_nil k (fun r hr => by rw [stocksStage_metric hr]; decide)
    have h2 : (gasStage MetricT.CH4_CO2e .CH4 (gwp_pair gwpName).1 long).filter
        (fun r => r.Metric == MetricT.N2O_CO2e && outKeyOf r == k) = [] :=
      filter_metric_key_nil k (fun r hr => by rw [hch4m gwpName long r hr]; decide)
    have h4 : (totalStage (gwp_pair gwpName).1 (gwp_pair gwpName).2 long).filter
        (fun r => r.Metric == MetricT.N2O_CO2e && outKeyOf r == k) = [] :=
      filter_metric_key_nil k (fun r hr => by rw [totalStage_metric hr]; decide)
    have h5 : (lsuStage split f long).filter
        (fun r => r.Metric == MetricT.N2O_CO2e && outKeyOf r == k) = [] :=
      filter_metric_key_nil k (fun r hr => by rw [lsuStage_metric hr]; decide)
    show ((stocksStage long
        ++ gasStage MetricT.CH4_CO2e .CH4 (gwp_pair gwpName).1 long
        ++ gasStage MetricT.N2O_CO2e .N2O (gwp_pair gwpName).2 long
        ++ totalStage (gwp_pair gwpName).1 (gwp_pair gwpName).2 long
        ++ lsuStage split f long).filter
          (fun r => r.Metric == MetricT.N2O_CO2e && outKeyOf r == k)).length ≤ 1
    rw [List.filter_append, List.filter_append, List.filter_append, List.filter_append,
      h1, h2, h4, h5]
    simpa using hgasPart MetricT.N2O_CO2e .N2O (gwp_pair gwpName).2 long k
  · intro split f long
    exact List.length_map _ _
  · intro gwpName f long k
    have h1 : (stocksStage long).filter
        (fun r => r.Metric == MetricT.LSU && outKeyOf r == k) = [] :=
      filter_metric_key_nil k (fun r hr => by rw [stocksStage_metric hr]; decide)
    have h2 : (gasStage MetricT.CH4_CO2e .CH4 (gwp_pair gwpName).1 long).filter
        (fun r => r.Metric == MetricT.LSU && outKeyOf r == k) = [] :=
      filter_metric_key_nil k (fun r hr => by rw [hch4m gwpName long r hr]; decide)
    have h3 : (gasStage MetricT.N2O_CO2e .N2O (gwp_pair gwpName).2 long).filter
        (fun r => r.Metric == MetricT.LSU && outKeyOf r == k) = [] :=
      filter_metric_key_nil k (fun r hr => by rw [hn2om gwpName long r hr]; decide)
    have h4 : (totalStage (gwp_pair gwpName).1 (gwp_pair gwpName).2 long).filter
        (fun r => r.Metric == MetricT.LSU && outKeyOf r == k) = [] :=
      filter_metric_key_nil k (fun r hr => by rw [totalStage_metric hr]; decide)
    show ((stocksStage long
        ++ gasStage MetricT.CH4_CO2e .CH4 (gwp_pair gwpName).1 long
        ++ gasStage MetricT.N2O_CO2e .N2O (gwp_pair gwpName).2 long
        ++ totalStage (gwp_pair gwpName).1 (gwp_pair gwpName).2 long
        ++ lsuStage false f long).filter
          (fun r => r.Metric == MetricT.LSU && outKeyOf r == k)).length = _
    rw [List.filter_append, List.filter_append, List.filter_append, List.filter_append,
      h1, h2, h3, h4]
    simpa using hlsuFalse f long k
  · intro gwpName f long k hknc
    have h1 : (stocksStage long).filter
        (fun r => r.Metric == MetricT.LSU && outKeyOf r == k) = [] :=
      filter_metric_key_nil k (fun r hr => by rw [stocksStage_metric hr]; decide)
    have h2 : (gasStage MetricT.CH4_CO2e .CH4 (gwp_pair gwpName).1 long).filter
        (fun r => r.Metric == MetricT.LSU && outKeyOf r == k) = [] :=
      filter_metric_key_nil k (fun r hr => by rw [hch4m gwpName long r hr]; decide)
    have h3 : (gasStage MetricT.N2O_CO2e .N2O (gwp_pair gwpName).2 long).filter
        (fun r => r.Metric == MetricT.LSU && outKeyOf r == k) = [] :=
      filter_metric_key_nil k (fun r hr => by rw [hn2om gwpName long r hr]; decide)
    have h4 : (totalStage (gwp_pair gwpName).1 (gwp_pair gwpName).2 long).filter
        (fun r => r.Metric == MetricT.LSU && outKeyOf r == k) = [] :=
      filter_metric_key_nil k (fun r hr => by rw [totalStage_metric hr]; decide)
    show ((stocksStage long
        ++ gasStage MetricT.CH4_CO2e .CH4 (gwp_pair gwpName).1 long
        ++ gasStage MetricT.N2O_CO2e .N2O (gwp_pair gwpName).2 long
        ++ totalStage (gwp_pair gwpName).1 (gwp_pair gwpName).2 long
        ++ lsuStage true f long).filter
          (fun r => r.Metric == MetricT.LSU && outKeyOf r == k)).length = _
    rw [List.filter_append, List.filter_append, List.filter_append, List.filter_append,
      h1, h2, h3, h4]
    simpa using hlsuTrue f long k hknc

/-- Claim C10 as frozen is false on the code: for two duplicate cattle stocks
rows (with the default split enabled) the output holds two Stocks rows on the
key but zero LSU rows on it — the LSU rows moved to the derived dairy/other
labels; duplicate CH4 rows are indeed collapsed to one row. -/
theorem C10_counterexample :
    looks_like_cattle "Cattle" = true
    ∧ ((prepared "AR6_NOCCF" true (dairyFrac 35) longDupW).filter
        (fun r => r.Metric == MetricT.Stocks && outKeyOf r == keyW)).length = 2
    ∧ ((prepared "AR6_NOCCF" true (dairyFrac 35) longDupW).filter
        (fun r => r.Metric == MetricT.LSU && outKeyOf r == keyW)).length = 0
    ∧ ((prepared "AR6_NOCCF" true (dairyFrac 35) longDupW).filter
        (fun r => r.Metric == MetricT.CH4_CO2e && outKeyOf r == keyW)).length = 1 := by
  exact ⟨by decide, by decide, by decide, by decide⟩

/-- Witness for the amended C10, on the duplicate-key tables. -/
theorem C10_witness :
    ((prepared "AR6_NOCCF" true (dairyFrac 35) longDupW).filter
        (fun r => r.Metric == MetricT.Stocks && outKeyOf r == keyW)).length
      = ((stocksRows longDupW).filter (fun r => keyOf r == keyW)).length
    ∧ ((prepared "AR6_NOCCF" true (dairyFrac 35) longDupW).filter
        (fun r => r.Metric == MetricT.CH4_CO2e && outKeyOf r == keyW)).length ≤ 1
    ∧ ((prepared "AR6_NOCCF" false (dairyFrac 35) longDupW).filter
        (fun r => r.Metric == MetricT.LSU && outKeyOf r == keyW)).length
      = ((stocksRows longDupW).filter (fun r => keyOf r == keyW)).length
    ∧ ((prepared "AR6_NOCCF" true (dairyFrac 35) [goatRowW, goatRowW]).filter
        (fun r => r.Metric == MetricT.LSU
          && outKeyOf r == ("France", "Goats", 2020, Kind.atomic, false, true))).length
      = ((stocksRows [goatRowW, goatRowW]).filter
          (fun r => keyOf r == ("France", "Goats", 2020, Kind.atomic, false, true))).length := by
  exact ⟨C10_duplicate_keys.1 "AR6_NOCCF" true (dairyFrac 35) longDupW keyW,
    C10_duplicate_keys.2.1 "AR6_NOCCF" true (dairyFrac 35) longDupW keyW,
    C10_duplicate_keys.2.2.2.2.1 "AR6_NOCCF" (dairyFrac 35) longDupW keyW,
    C10_duplicate_keys.2.2.2.2.2 "AR6_NOCCF" (dairyFrac 35) [goatRowW, goatRowW]
      ("France", "Goats", 2020, Kind.atomic, false, true) (by decide)⟩

end Livestock
